import Mathlib

/-!
# Freenove ESP Web Flasher: serial session, read loop and flashing hand-off

A shallow embedding of `src/esptool-integration.js`.

The module keeps its session in module-level variables (`device`, `transport`,
`esploader`, `monitorReader`, `keepReading`, `currentBaudRate`).  They are the
first fields of `World`.  The remaining fields describe what the JavaScript
runtime holds for the module: the state of the selected serial port, the
suspended activations of `readLoop` and `startSerialMonitor`, the pending timer
callbacks, and the sequence of calls issued so far (`trace`).

Every call into the browser or into the flash protocol engine can raise.  Its
outcome is an argument of the embedded function (the `...Env` structures), so a
theorem quantified over the environment covers every outcome.

Behaviour of the platform that the functions rely on:

* a successful `port.open` makes `port.readable` non-null, a successful
  `port.close` makes it null, a failed call leaves it as it was;
* `readable.getReader()` raises when the stream is locked, otherwise it locks
  the stream for a fresh reader;
* `reader.cancel()` closes the stream, so a `read()` pending on that reader
  settles with `done`; the activation of `readLoop` awaiting it runs on before
  the caller of `cancel` is resumed; the promise returned by `cancel` may still
  reject;
* `reader.releaseLock()` unlocks the stream and rejects a `read()` still
  pending on that reader;
* a successful `transport.disconnect()` of the protocol engine leaves the port
  closed.  What the engine does with the port between `new Transport` and
  `transport.disconnect()` is not described by the state.

`connectToDevice`, `disconnectDevice`, `changeBaudRate`, `stopSerialMonitor`
and `startFlashing` are embedded as running from call to return with no other
task of the page scheduled at their `await` points (apart from the reaction of
`readLoop` to `cancel`).  `startSerialMonitor` and `readLoop` are embedded
activation by activation, so that overlapping activations can be expressed.

The numbers of the progress callback are IEEE 754 binary64 values.  `NumberOps.ieee`
computes them on rationals: the result of a division or of a multiplication is the exact
result rounded to the nearest number of 53 significant bits, a tie going to the even one
(`fl`).  The range of the exponent is not described; for `written ≤ total < 2 ^ 53` no
operation of the callback leaves the range of the normal numbers.
-/

namespace EspFlasher

/-! ## Values -/

/-- Errors raised in the module or by its environment. -/
inductive Err where
  /-- `new Error("Device not connected. Please click Connect first.")` -/
  | notConnected
  /-- `new Error("Failed to fetch manifest.")` -/
  | manifestNotOk
  /-- `new Error("Failed to fetch <path>: <statusText>")` of `fetchBinaryFile` -/
  | fetchNotOk (path : String)
  /-- a `TypeError` of the runtime -/
  | typeError
  /-- a `RangeError` of the runtime (`String.prototype.repeat`) -/
  | rangeError
  /-- an error raised by a call into the browser or the protocol engine -/
  | env (code : Nat)
  deriving DecidableEq, Repr

/-- Result of a call: a value, or a raised error. -/
inductive Res (α : Type) where
  | ok (a : α)
  | raise (e : Err)
  deriving DecidableEq, Repr

/-- One entry of `fileArray`: `data` is the binary string, `address` the flash offset. -/
structure FileEntry where
  data : String
  address : Nat
  deriving DecidableEq, Repr

/-- Lines written to the console terminal or to the serial monitor terminal. -/
inductive Msg where
  | connecting (baud : Nat)
  | connectionFailed (e : Err)
  | deviceDisconnected
  | disconnectFailed (e : Err)
  | portNotReadable
  | preparing
  | initLoader (baud : Nat)
  | detectedChip (chip : String)
  | downloading
  | fetching (path : String)
  | writing
  | flashingComplete
  | flashingFailed (e : Err)
  | restoring
  | firstReset
  | deviceReady
  | manualReconnect
  deriving DecidableEq, Repr

/-- Calls issued by the module, in the order they are issued. -/
inductive Event where
  /-- `navigator.serial.requestPort()` -/
  | requestPort
  /-- `device.close()` -/
  | portClose
  /-- `device.open` with the option `baudRate` -/
  | portOpen (baud : Nat)
  /-- `device.setSignals` with the options `dataTerminalReady` and `requestToSend` -/
  | setSignals (dataTerminalReady requestToSend : Bool)
  /-- `await new Promise(resolve => setTimeout(resolve, ms))` -/
  | delay (ms : Nat)
  /-- `device.readable.getReader()` returning reader `r` -/
  | getReader (r : Nat)
  /-- `device.readable.getReader()` raising because the stream is locked by `holder` -/
  | getReaderLocked (holder : Nat)
  /-- `monitorReader.cancel()` -/
  | readerCancel (r : Nat)
  /-- `monitorReader.releaseLock()` -/
  | releaseLock (r : Nat)
  /-- `serialMonitorTerminal.write(value)` -/
  | monitorWrite (value : List Nat)
  /-- `serialMonitorTerminal.writeln(...)` -/
  | monitorLine (m : Msg)
  /-- `consoleTerminal.writeLine(...)` -/
  | consoleLine (m : Msg)
  /-- `consoleTerminal.write(...)` -/
  | consoleWrite (text : String)
  /-- `console.error(...)` of the browser console -/
  | consoleError
  /-- `setTimeout(() => startSerialMonitor(), ms)` -/
  | scheduleStart (ms : Nat)
  /-- `new Transport(device, true)` -/
  | newTransport
  /-- `new ESPLoader(flashOptions)` with `baudrate` -/
  | newLoader (baud : Nat)
  /-- `esploader.main()` -/
  | engineMain
  /-- `esploader.eraseFlash()` -/
  | engineErase
  /-- `fetch(manifestPath)` -/
  | fetchManifest (path : String)
  /-- `fetch(filePath)` in `fetchBinaryFile` -/
  | fetchBinary (path : String)
  /-- `esploader.writeFlash` with the option `fileArray` -/
  | engineWrite (fileArray : List FileEntry)
  /-- `transport.disconnect()` -/
  | transportDisconnect
  deriving DecidableEq, Repr

/-- Where a suspended activation of `startSerialMonitor` will resume. -/
inductive StartPc where
  /-- after `await monitorReader.cancel()` -/
  | afterCancel
  /-- after `await new Promise(resolve => setTimeout(resolve, 100))` -/
  | afterSettle
  deriving DecidableEq, Repr

/-- Module variables, runtime state and issued calls. -/
structure World where
  /-- `let device = null` : the `SerialPort` object, by identity -/
  device : Option Nat
  /-- `let transport = null` is non-null -/
  transport : Bool
  /-- `let esploader = null` is non-null -/
  esploader : Bool
  /-- `let monitorReader = null` : the reader object, by identity -/
  monitorReader : Option Nat
  /-- `let keepReading = false` -/
  keepReading : Bool
  /-- `let currentBaudRate = 115200` -/
  currentBaudRate : Nat
  /-- `device.readable` is non-null (the selected port is open) -/
  readable : Bool
  /-- the reader that holds the lock of `device.readable` -/
  lock : Option Nat
  /-- activations of `readLoop` suspended in `await monitorReader.read()`,
  each with the reader its `read()` is pending on -/
  loops : List Nat
  /-- suspended activations of `startSerialMonitor` -/
  starters : List StartPc
  /-- pending `setTimeout(() => startSerialMonitor(), 200)` callbacks -/
  timers : Nat
  /-- identity of the next reader object -/
  nextReader : Nat
  /-- calls issued so far -/
  trace : List Event
  deriving DecidableEq, Repr

/-- State of the module right after it is loaded. -/
def World.init : World :=
  { device := none, transport := false, esploader := false, monitorReader := none,
    keepReading := false, currentBaudRate := 115200, readable := false, lock := none,
    loops := [], starters := [], timers := 0, nextReader := 0, trace := [] }

/-- Record a call. -/
def emit (e : Event) (w : World) : World :=
  { w with trace := w.trace ++ [e] }

/-! ## Read loop -/

/-- Outcome of `await monitorReader.read()`. -/
inductive ReadResult where
  /-- a result with `done` false and a `value`; `none` is a falsy `value` -/
  | chunk (value : Option (List Nat))
  /-- a result with `done` true -/
  | done
  /-- the promise rejects -/
  | error
  deriving DecidableEq, Repr

/-- The `finally` block of `readLoop`: release and clear `monitorReader` when it is set.
A `read()` still pending on the released reader is rejected; the activation awaiting
it then runs its `catch` and its `finally` with `monitorReader` already null, and returns. -/
def readLoopFinally (w : World) : World :=
  match w.monitorReader with
  | some r =>
    { w with
      lock := if w.lock = some r then none else w.lock
      monitorReader := none
      loops := w.loops.filter (fun x => x != r)
      trace := w.trace ++ [.releaseLock r] ++ List.replicate (w.loops.count r) .consoleError }
  | none => w

/-- `readLoop` from the test of its `while` up to the first suspension in
`await monitorReader.read()`, or up to its return. -/
def readLoopEnter (w : World) : World :=
  if w.device.isSome && w.readable && w.keepReading then
    match w.lock with
    | none =>
      let r := w.nextReader
      { emit (.getReader r) w with
        monitorReader := some r, lock := some r, loops := r :: w.loops, nextReader := r + 1 }
    | some holder =>
      -- `getReader()` raises: `catch` logs and breaks, then `finally`
      readLoopFinally (emit .consoleError (emit (.getReaderLocked holder) w))
  else w

/-- The activation of `readLoop` whose `read()` is pending on reader `r` is resumed
with the outcome `res` of that read, and runs to its next suspension or its return. -/
def readLoopResume (r : Nat) (res : ReadResult) (w : World) : World :=
  let w := { w with loops := w.loops.erase r }
  match res with
  | .chunk value =>
    let w := match value with
      | some v => emit (.monitorWrite v) w
      | none => w
    -- next `await monitorReader.read()`
    match w.monitorReader with
    | some r' => { w with loops := r' :: w.loops }
    | none => readLoopFinally (emit .consoleError w)
  | .done => readLoopEnter (readLoopFinally w)
  | .error => readLoopFinally (emit .consoleError w)

/-- `reader.cancel()` on reader `r`: the pending `read()` settles with `done` and the
activation awaiting it runs on. -/
def cancelReader (r : Nat) (w : World) : World :=
  let w := emit (.readerCancel r) w
  if r ∈ w.loops then readLoopResume r .done w else w

/-- `stopSerialMonitor()`; `cancel` is the outcome of `await monitorReader.cancel()`. -/
def stopSerialMonitor (cancel : Res Unit) (w : World) : Res Unit × World :=
  let w := { w with keepReading := false }
  match w.monitorReader with
  | some r => (cancel, cancelReader r w)
  | none => (.ok (), w)

/-! ## Starting the monitor -/

/-- `startSerialMonitor` from `keepReading = true` on: the call `readLoop()` runs to the
first suspension of the new activation. -/
def startTail (w : World) : World :=
  readLoopEnter { w with keepReading := true }

/-- `startSerialMonitor` from `if (!device) return;` on. -/
def startFromDevice (w : World) : World :=
  if w.device.isNone then w
  else if !w.readable then
    { emit (.delay 100) w with starters := .afterSettle :: w.starters }
  else startTail w

/-- `startSerialMonitor()` from its call to its first suspension or its return. -/
def startSerialMonitorCall (w : World) : World :=
  if w.keepReading then
    let w := { w with keepReading := false }
    match w.monitorReader with
    | some r =>
      let w := cancelReader r w
      { w with starters := .afterCancel :: w.starters }
    | none => startFromDevice w
  else startFromDevice w

/-- A suspended activation of `startSerialMonitor` is resumed at `pc`. -/
def startResume (pc : StartPc) (w : World) : World :=
  let w := { w with starters := w.starters.erase pc }
  match pc with
  | .afterCancel =>
    -- the error of `await monitorReader.cancel()` is caught and dropped; `monitorReader = null`
    startFromDevice { w with monitorReader := none }
  | .afterSettle =>
    -- `device.readable` raises a `TypeError` when `device` is null by now
    if w.device.isNone then w
    else if !w.readable then
      emit (.monitorLine .portNotReadable) (emit .consoleError w)
    else startTail w

/-- The callback of `setTimeout(() => startSerialMonitor(), 200)` fires. -/
def timerFire (w : World) : World :=
  startSerialMonitorCall { w with timers := w.timers - 1 }

/-- `startSerialMonitor()` with no other task scheduled while it is suspended: each
suspension is resumed at once. -/
def startSerialMonitor (w : World) : World :=
  let w1 := startSerialMonitorCall w
  if w1.starters.length = w.starters.length then w1
  else
    let w2 := startResume (w1.starters.headD .afterCancel) w1
    if w2.starters.length = w.starters.length then w2
    else startResume (w2.starters.headD .afterSettle) w2

/-! ## Connecting and disconnecting -/

/-- Outcomes of the calls made by `connectToDevice`. -/
structure ConnectEnv where
  /-- `navigator.serial.requestPort()` -/
  requestPort : Res Nat
  /-- `device.close()` -/
  close : Res Unit
  /-- `device.open` with `baudRate: baudrate` -/
  openPort : Res Unit
  deriving DecidableEq, Repr

/-- The `catch` block of `connectToDevice`. -/
def connectCatch (e : Err) (w : World) : Res Bool × World :=
  (.raise e, emit (.consoleLine (.connectionFailed e)) (emit .consoleError w))

/-- `connectToDevice(baudrate)`. -/
def connectToDevice (env : ConnectEnv) (baudrate : Nat) (w : World) : Res Bool × World :=
  -- if (device === null) device = await navigator.serial.requestPort();
  let acquired : Res Unit × World :=
    match w.device with
    | some _ => (.ok (), w)
    | none =>
      match env.requestPort with
      | .ok p => (.ok (), { emit .requestPort w with device := some p })
      | .raise e => (.raise e, emit .requestPort w)
  match acquired with
  | (.raise e, w) => connectCatch e w
  | (.ok _, w) =>
    -- if (device.readable) await device.close();
    let closed : Res Unit × World :=
      if w.readable then
        match env.close with
        | .ok _ => (.ok (), { emit .portClose w with readable := false })
        | .raise e => (.raise e, emit .portClose w)
      else (.ok (), w)
    match closed with
    | (.raise e, w) => connectCatch e w
    | (.ok _, w) =>
      let w := emit (.consoleLine (.connecting baudrate)) w
      match env.openPort with
      | .raise e => connectCatch e (emit (.portOpen baudrate) w)
      | .ok _ =>
        let w := { emit (.portOpen baudrate) w with readable := true }
        let w := { w with currentBaudRate := baudrate }
        let w := { emit (.scheduleStart 200) w with timers := w.timers + 1 }
        (.ok true, w)

/-- Outcomes of the calls made by `disconnectDevice`. -/
structure DisconnectEnv where
  /-- `monitorReader.cancel()` in `stopSerialMonitor` -/
  cancel : Res Unit
  /-- `device.close()` -/
  close : Res Unit
  deriving DecidableEq, Repr

/-- The `catch` block of `disconnectDevice`: log, do not rethrow. -/
def disconnectCatch (e : Err) (w : World) : Res Unit × World :=
  (.ok (), emit (.consoleLine (.disconnectFailed e)) (emit .consoleError w))

/-- `disconnectDevice()`. -/
def disconnectDevice (env : DisconnectEnv) (w : World) : Res Unit × World :=
  match stopSerialMonitor env.cancel w with
  | (.raise e, w) => disconnectCatch e w
  | (.ok _, w) =>
    match w.device with
    | some _ =>
      match env.close with
      | .raise e => disconnectCatch e (emit .portClose w)
      | .ok _ =>
        let w := { emit .portClose w with readable := false }
        let w := { w with device := none }
        (.ok (), emit (.consoleLine .deviceDisconnected) w)
    | none => (.ok (), emit (.consoleLine .deviceDisconnected) w)

/-- Outcomes of the calls made by `changeBaudRate`. -/
structure BaudEnv where
  /-- `monitorReader.cancel()` in `stopSerialMonitor` -/
  cancel : Res Unit
  /-- `device.close()` -/
  close : Res Unit
  /-- `device.open` with `baudRate: newBaudRate` -/
  openPort : Res Unit
  deriving DecidableEq, Repr

/-- `changeBaudRate` from its call up to the suspension in `await device.open(...)`:
the monitor is stopped, the port is closed and `open` has been called. -/
def changeBaudRateToOpen (env : BaudEnv) (newBaudRate : Nat) (w : World) : Res Unit × World :=
  match stopSerialMonitor env.cancel w with
  | (.raise e, w) => (.raise e, w)
  | (.ok _, w) =>
    match env.close with
    | .raise e => (.raise e, emit .portClose w)
    | .ok _ =>
      let w := { emit .portClose w with readable := false }
      (.ok (), emit (.portOpen newBaudRate) w)

/-- `changeBaudRate` from the settling of `await device.open(...)` to its return. -/
def changeBaudRateFromOpen (env : BaudEnv) (newBaudRate : Nat) (w : World) : Res Unit × World :=
  match env.openPort with
  | .raise e => (.raise e, w)
  | .ok _ =>
    let w := { w with readable := true }
    let w := { w with currentBaudRate := newBaudRate }
    (.ok (), startSerialMonitorCall w)

/-- `changeBaudRate(newBaudRate)`. -/
def changeBaudRate (env : BaudEnv) (newBaudRate : Nat) (w : World) : Res Unit × World :=
  if w.device.isNone then (.ok (), w)
  else
    match changeBaudRateToOpen env newBaudRate w with
    | (.raise e, w) => (.raise e, w)
    | (.ok _, w) => changeBaudRateFromOpen env newBaudRate w

/-- `getConnectedPort()`. -/
def getConnectedPort (w : World) : Option Nat := w.device

/-! ## Flashing -/

/-- One part of a build in the firmware manifest. -/
structure Part where
  path : String
  offset : Nat
  deriving DecidableEq, Repr

/-- One build of the firmware manifest. -/
structure Build where
  parts : List Part
  deriving DecidableEq, Repr

/-- The firmware manifest (`manifestResponse.json()`). -/
structure Manifest where
  builds : List Build
  deriving DecidableEq, Repr

/-- The `selectedVersion` argument of `startFlashing`. -/
structure Version where
  manifest_path : String
  deriving DecidableEq, Repr

/-- Response of `fetch(filePath)` in `fetchBinaryFile`. -/
structure Response where
  /-- `response.ok` -/
  ok : Bool
  /-- `response.arrayBuffer()`, as byte values -/
  body : Res (List Nat)
  deriving DecidableEq, Repr

/-- Response of `fetch(manifestPath)`. -/
structure ManifestResponse where
  /-- `manifestResponse.ok` -/
  ok : Bool
  /-- `manifestResponse.json()`; a document that is not a manifest makes the loops over
  `manifest.builds` raise, which is a raising `json` here -/
  json : Res Manifest
  deriving DecidableEq, Repr

/-- A JavaScript number that is an integer, `NaN` or an infinity. -/
inductive JsNum where
  | nan
  | posInf
  | negInf
  | int (z : Int)
  deriving DecidableEq, Repr

/-- The two floating-point computations of the progress callback. -/
structure NumberOps where
  /-- `((written / total) * 100).toFixed(0)` -/
  percentage : Nat → Nat → String
  /-- `Math.round(progressBarLength * (written / total))` -/
  filled : Nat → Nat → JsNum

/-- Outcomes of the calls made by `startFlashing`. -/
structure FlashEnv where
  /-- `monitorReader.cancel()` in `stopSerialMonitor` -/
  cancel : Res Unit
  /-- `device.close()` -/
  close : Res Unit
  /-- `new Transport(device, true)` -/
  newTransport : Res Unit
  /-- `new ESPLoader(flashOptions)` -/
  newLoader : Res Unit
  /-- `esploader.main()`, the chip name -/
  main : Res String
  /-- `esploader.eraseFlash()` -/
  eraseFlash : Res Unit
  /-- `fetch(manifestPath)` -/
  manifest : Res ManifestResponse
  /-- `fetch(filePath)` of the call number `k` (from 0) of `fetchBinaryFile` -/
  fetchBinary : Nat → String → Res Response
  /-- the calls `reportProgress(fileIndex, written, total)` made by `writeFlash` -/
  progress : List (Nat × Nat × Nat)
  /-- `esploader.writeFlash(...)` once its progress reports are made -/
  writeFlash : Res Unit
  /-- `transport.disconnect()` -/
  disconnect : Res Unit
  /-- `device.open` with `baudRate: monitorBaudRate` -/
  reopen : Res Unit
  /-- the call number `k` (from 0) of `device.setSignals(...)` -/
  setSignals : Nat → Res Unit
  /-- number operations of the runtime -/
  ops : NumberOps

/-- Run `f` on the value of `x`, or pass the raised error on. -/
def andThen {α β : Type} (x : Res α × World) (f : α → World → Res β × World) :
    Res β × World :=
  match x with
  | (.ok a, w) => f a w
  | (.raise e, w) => (.raise e, w)

/-- Issue the call `ev` with outcome `out`. -/
def call {α : Type} (ev : Event) (out : Res α) (w : World) : Res α × World :=
  (out, emit ev w)

/-- `consoleTerminal.writeLine(m)`. -/
def say (m : Msg) (w : World) : Res Unit × World :=
  (.ok (), emit (.consoleLine m) w)

/-- `manifestPath.lastIndexOf('/') + 1` on the characters of `manifestPath`:
one past the last `/`, and `0` when there is none. -/
def lastSlashEnd : List Char → Nat
  | [] => 0
  | c :: rest =>
    if lastSlashEnd rest ≠ 0 then lastSlashEnd rest + 1
    else if c = '/' then 1 else 0

/-- `manifestPath.substring(0, manifestPath.lastIndexOf('/') + 1)`. -/
def basePath (manifestPath : String) : String :=
  String.mk (manifestPath.data.take (lastSlashEnd manifestPath.data))

/-- `Array.from(new Uint8Array(buffer), byte => String.fromCharCode(byte)).join('')`. -/
def binaryString (bytes : List Nat) : String :=
  String.mk (bytes.map Char.ofNat)

/-- `fetchBinaryFile(filePath)`, as call number `k`. -/
def fetchBinaryFile (env : FlashEnv) (k : Nat) (filePath : String) (w : World) :
    Res String × World :=
  andThen (call (.fetchBinary filePath) (env.fetchBinary k filePath) w) fun response w =>
    if !response.ok then (.raise (.fetchNotOk filePath), w)
    else
      match response.body with
      | .raise e => (.raise e, w)
      | .ok bytes => (.ok (binaryString bytes), w)

/-- The inner loop `for (const part of build.parts)`; `fileArray` is the array so far. -/
def fetchParts (env : FlashEnv) (base : String) :
    List Part → List FileEntry → World → Res (List FileEntry) × World
  | [], fileArray, w => (.ok fileArray, w)
  | part :: rest, fileArray, w =>
    andThen (say (.fetching part.path) w) fun _ w =>
    andThen (fetchBinaryFile env fileArray.length (base ++ part.path) w) fun binaryData w =>
    fetchParts env base rest (fileArray ++ [{ data := binaryData, address := part.offset }]) w

/-- The outer loop `for (const build of manifest.builds)`. -/
def fetchBuilds (env : FlashEnv) (base : String) :
    List Build → List FileEntry → World → Res (List FileEntry) × World
  | [], fileArray, w => (.ok fileArray, w)
  | build :: rest, fileArray, w =>
    andThen (fetchParts env base build.parts fileArray w) fun fileArray w =>
    fetchBuilds env base rest fileArray w

/-- `progressBarLength - filled`. -/
def JsNum.subFrom (n : Int) : JsNum → JsNum
  | .nan => .nan
  | .posInf => .negInf
  | .negInf => .posInf
  | .int z => .int (n - z)

/-- `String.prototype.repeat` for a one-character string: `NaN` counts as `0`,
a negative or infinite count raises a `RangeError`. -/
def jsRepeat (c : Char) : JsNum → Res String
  | .nan => .ok ""
  | .int z => if z < 0 then .raise .rangeError else .ok (String.mk (List.replicate z.toNat c))
  | _ => .raise .rangeError

/-- The text `newLine` computed by the progress callback. -/
def renderLine (ops : NumberOps) (fileCount fileIndex written total : Nat) : Res String :=
  let fileName := "File " ++ toString (fileIndex + 1) ++ "/" ++ toString fileCount
  let percentage := ops.percentage written total
  let filled := ops.filled written total
  let empty := JsNum.subFrom 20 filled
  match jsRepeat '█' filled with
  | .raise e => .raise e
  | .ok full =>
    match jsRepeat '-' empty with
    | .raise e => .raise e
    | .ok rest =>
      let bar := "[" ++ full ++ rest ++ "]"
      .ok (fileName ++ " " ++ bar ++ " " ++ percentage ++ "% ")

/-- The callback `progressBar(fileIndex, written, total)`; `lastProgressLine` is the
variable of the enclosing scope, returned with its new value. -/
def progressBar (ops : NumberOps) (fileCount : Nat) (lastProgressLine : String)
    (fileIndex written total : Nat) (w : World) : Res String × World :=
  match renderLine ops fileCount fileIndex written total with
  | .raise e => (.raise e, w)
  | .ok newLine =>
    if newLine ≠ lastProgressLine then
      let pad := String.mk (List.replicate (lastProgressLine.length - newLine.length) ' ')
      (.ok newLine, emit (.consoleWrite (newLine ++ pad)) w)
    else (.ok lastProgressLine, w)

/-- The progress reports of one `writeFlash`, in order; a raising callback ends them. -/
def reportAll (ops : NumberOps) (fileCount : Nat) :
    List (Nat × Nat × Nat) → String → World → Res String × World
  | [], lastProgressLine, w => (.ok lastProgressLine, w)
  | (fileIndex, written, total) :: rest, lastProgressLine, w =>
    andThen (progressBar ops fileCount lastProgressLine fileIndex written total w)
      fun lastProgressLine w => reportAll ops fileCount rest lastProgressLine w

/-- The `try` block of `startFlashing` from the loops over `manifest.builds` on: the
binaries are fetched into `fileArray` and handed to `writeFlash`. -/
def flashParts (env : FlashEnv) (base : String) (manifest : Manifest) (w : World) :
    Res Unit × World :=
  andThen (fetchBuilds env base manifest.builds [] w) fun fileArray w =>
  andThen (say .writing w) fun _ w =>
  andThen (reportAll env.ops fileArray.length env.progress "" (emit (.engineWrite fileArray) w))
    fun _ w =>
  andThen (env.writeFlash, w) fun _ w =>
  say .flashingComplete w

/-- The `try` block of `startFlashing`. -/
def flashTry (env : FlashEnv) (selectedVersion : Option Version) (eraseFlash : Bool)
    (flashBaudRate : Nat) (w : World) : Res Unit × World :=
  andThen (say (.initLoader flashBaudRate) w) fun _ w =>
  andThen (call .newTransport env.newTransport w) fun _ w =>
  andThen (call (.newLoader flashBaudRate) env.newLoader { w with transport := true }) fun _ w =>
  andThen (call .engineMain env.main { w with esploader := true }) fun chipName w =>
  andThen (say (.detectedChip chipName) w) fun _ w =>
  andThen (if eraseFlash then call .engineErase env.eraseFlash w else (.ok (), w)) fun _ w =>
  andThen (say .downloading w) fun _ w =>
  match selectedVersion with
  | none => (.raise .typeError, w)
  | some version =>
    let manifestPath := version.manifest_path
    let base := basePath manifestPath
    andThen (call (.fetchManifest manifestPath) env.manifest w) fun manifestResponse w =>
    if !manifestResponse.ok then (.raise .manifestNotOk, w)
    else
      andThen (manifestResponse.json, w) fun manifest w =>
      flashParts env base manifest w

/-- The `catch` block of `startFlashing`: log and rethrow. -/
def flashCatch (r : Res Unit × World) : Res Unit × World :=
  match r with
  | (.raise e, w) => (.raise e, emit (.consoleLine (.flashingFailed e)) (emit .consoleError w))
  | (.ok a, w) => (.ok a, w)

/-- The double reset of the restoration: five `setSignals` calls and three delays. -/
def doubleReset (env : FlashEnv) (w : World) : Res Unit × World :=
  andThen (say .firstReset w) fun _ w =>
  andThen (call (.setSignals false true) (env.setSignals 0) w) fun _ w =>
  andThen (call (.delay 100) (.ok ()) w) fun _ w =>
  andThen (call (.setSignals false false) (env.setSignals 1) w) fun _ w =>
  andThen (call (.delay 3000) (.ok ()) w) fun _ w =>
  andThen (call (.setSignals false true) (env.setSignals 2) w) fun _ w =>
  andThen (call (.delay 100) (.ok ()) w) fun _ w =>
  andThen (call (.setSignals false false) (env.setSignals 3) w) fun _ w =>
  call (.setSignals false false) (env.setSignals 4) w

/-- The `try` block of the restoration in the `finally` block of `startFlashing`. -/
def restoreTry (env : FlashEnv) (monitorBaudRate : Nat) (w : World) : Res Unit × World :=
  andThen (say .restoring w) fun _ w =>
  andThen (call (.portOpen monitorBaudRate) env.reopen w) fun _ w =>
  andThen (doubleReset env { w with readable := true }) fun _ w =>
  say .deviceReady (startSerialMonitorCall w)

/-- The restoration with its `catch`: a failure is logged and not rethrown. -/
def restore (env : FlashEnv) (monitorBaudRate : Nat) (w : World) : World :=
  match restoreTry env monitorBaudRate w with
  | (.ok _, w) => w
  | (.raise _, w) => emit (.consoleLine .manualReconnect) (emit .consoleError w)

/-- The `finally` block of `startFlashing`. -/
def flashFinally (env : FlashEnv) (monitorBaudRate : Nat) (w : World) : Res Unit × World :=
  andThen
    (if w.transport then
      andThen (call .transportDisconnect env.disconnect w) fun _ w =>
        (.ok (), { w with readable := false, transport := false, esploader := false })
    else (.ok (), w))
    fun _ w => (.ok (), restore env monitorBaudRate w)

/-- `try ... catch ... finally` of `startFlashing`: an error raised in the `finally`
block replaces the pending outcome. -/
def flashGuarded (env : FlashEnv) (selectedVersion : Option Version) (eraseFlash : Bool)
    (flashBaudRate monitorBaudRate : Nat) (w : World) : Res Unit × World :=
  let r := flashCatch (flashTry env selectedVersion eraseFlash flashBaudRate w)
  match flashFinally env monitorBaudRate r.2 with
  | (.raise e, w) => (.raise e, w)
  | (.ok _, w) => (r.1, w)

/-- `startFlashing(selectedVersion, eraseFlash, flashBaudRate)`. -/
def startFlashing (env : FlashEnv) (selectedVersion : Option Version) (eraseFlash : Bool)
    (flashBaudRate : Nat) (w : World) : Res Unit × World :=
  if w.device.isNone then (.raise .notConnected, w)
  else
    let monitorBaudRate := w.currentBaudRate
    andThen (say .preparing w) fun _ w =>
    andThen (stopSerialMonitor env.cancel w) fun _ w =>
    andThen (call .portClose env.close w) fun _ w =>
    flashGuarded env selectedVersion eraseFlash flashBaudRate monitorBaudRate
      { w with readable := false }

/-! ## States -/

/-- The read loop, if there is one, is the activation reading from `monitorReader`,
and that reader holds the lock of the stream. -/
def Settled (w : World) : Prop :=
  w.loops = w.monitorReader.toList ∧ w.lock = w.monitorReader

instance (w : World) : Decidable (Settled w) := by
  unfold Settled; infer_instance

/-- The module variables of the session and the state of its read loop agree. -/
def SameSession (w w' : World) : Prop :=
  w'.device = w.device ∧ w'.keepReading = w.keepReading ∧ w'.monitorReader = w.monitorReader ∧
  w'.currentBaudRate = w.currentBaudRate ∧ w'.readable = w.readable ∧ w'.lock = w.lock ∧
  w'.loops = w.loops ∧ w'.starters = w.starters ∧ w'.timers = w.timers

instance (w w' : World) : Decidable (SameSession w w') := by
  unfold SameSession; infer_instance

/-- A session connected at 115200 baud whose read loop is running on reader 0. -/
def World.monitoring : World :=
  { World.init with
    device := some 1, readable := true, keepReading := true, monitorReader := some 0,
    lock := some 0, loops := [0], nextReader := 1 }

/-- The session after a connect whose `open` call failed: the port handle is cached,
the port is not open. -/
def World.openFailed : World :=
  (connectToDevice { requestPort := .ok 1, close := .ok (), openPort := .raise (.env 1) }
    115200 World.init).2

/-- The session after a connect, the start of the monitor by the timer, and a read error
that ended the read loop. -/
def World.afterReadError : World :=
  readLoopResume 0 .error
    (timerFire (connectToDevice { requestPort := .ok 1, close := .ok (), openPort := .ok () }
      115200 World.init).2)

/-- The two computations of the progress callback carried out without rounding error
(`Math.round` and `toFixed(0)` round halves up on non-negative numbers; a zero `total`
gives `NaN` or `Infinity`). -/
def NumberOps.exact : NumberOps where
  percentage written total :=
    if total = 0 then (if written = 0 then "NaN" else "Infinity")
    else toString ((200 * written + total) / (2 * total))
  filled written total :=
    if total = 0 then (if written = 0 then .nan else .posInf)
    else .int (((40 * written + total) / (2 * total) : Nat))

/-- A manifest with one build of two parts, at offsets `0x0` and `0x10000`. -/
def Manifest.twoParts : Manifest :=
  { builds := [{ parts := [{ path := "boot.bin", offset := 0x0 },
                           { path := "app.bin", offset := 0x10000 }] }] }

/-- An environment in which every call succeeds, for `Manifest.twoParts`. -/
def FlashEnv.allOk : FlashEnv where
  cancel := .ok ()
  close := .ok ()
  newTransport := .ok ()
  newLoader := .ok ()
  main := .ok "ESP32"
  eraseFlash := .ok ()
  manifest := .ok { ok := true, json := .ok Manifest.twoParts }
  fetchBinary k _ := .ok { ok := true, body := .ok [k, 255] }
  progress := [(0, 0, 100), (0, 50, 100), (0, 51, 100), (0, 100, 100)]
  writeFlash := .ok ()
  disconnect := .ok ()
  reopen := .ok ()
  setSignals _ := .ok ()
  ops := NumberOps.exact

/-- An environment in which the write to flash fails and everything else succeeds. -/
def FlashEnv.writeFails : FlashEnv :=
  { FlashEnv.allOk with writeFlash := .raise (.env 7) }

/-- An environment in which the write to flash fails (the device is lost) and the
disconnect of the protocol engine then fails too. -/
def FlashEnv.writeAndDisconnectFail : FlashEnv :=
  { FlashEnv.allOk with writeFlash := .raise (.env 7), disconnect := .raise (.env 9) }

/-- An environment in which flashing succeeds and the disconnect of the protocol engine
fails. -/
def FlashEnv.disconnectFails : FlashEnv :=
  { FlashEnv.allOk with disconnect := .raise (.env 9) }

/-- An environment of `changeBaudRate` in which every call succeeds. -/
def BaudEnv.allOk : BaudEnv := { cancel := .ok (), close := .ok (), openPort := .ok () }

/-- A schedule of the page in which two activations of `startSerialMonitor` overlap.
The user connects (the start of the monitor is scheduled 200 ms later) and changes the
baud rate before the timer fires.  The timer fires while `changeBaudRate` awaits
`device.open`: the port is not readable, so that activation waits 100 ms.  `open` settles
and `changeBaudRate` starts the monitor.  The result is the state in which the waiting
activation is about to resume. -/
def World.overlapBeforeResume : World :=
  let connected := (connectToDevice { requestPort := .ok 1, close := .ok (), openPort := .ok () }
    115200 World.init).2
  let closing := (changeBaudRateToOpen BaudEnv.allOk 9600 connected).2
  let waiting := timerFire closing
  (changeBaudRateFromOpen BaudEnv.allOk 9600 waiting).2

/-- The schedule `World.overlapBeforeResume`, continued by the resumption of the
activation that waited 100 ms. -/
def World.overlapAfterResume : World :=
  startResume .afterSettle World.overlapBeforeResume

/-- The version whose manifest is `fw/v1/manifest.json`. -/
def Version.sample : Version := { manifest_path := "fw/v1/manifest.json" }

/-! ## Specification of the progress display -/

/-- The texts `newLine` of a sequence of progress callbacks, up to the first callback
whose rendering raises. -/
def renderedLines (ops : NumberOps) (fileCount : Nat) : List (Nat × Nat × Nat) → List String
  | [] => []
  | (fileIndex, written, total) :: rest =>
    match renderLine ops fileCount fileIndex written total with
    | .ok newLine => newLine :: renderedLines ops fileCount rest
    | .raise _ => []

/-- Specification: of a sequence of rendered lines, a line is emitted when it differs from
the line emitted last (`last`, initially the empty text); each emitted line is paired with
the line emitted before it. -/
def emittedLines : String → List String → List (String × String)
  | _, [] => []
  | last, line :: rest =>
    if line ≠ last then (last, line) :: emittedLines line rest
    else emittedLines last rest

/-- The write made for an emitted line: the line, padded with blanks to the length of the
line emitted before it. -/
def progressWrite (p : String × String) : Event :=
  .consoleWrite (p.2 ++ String.mk (List.replicate (p.1.length - p.2.length) ' '))

/-! ## Views of the trace and of the state -/

/-- Calls made by the steps of the `try` block of `startFlashing`: calls into the protocol
engine, fetches, and console output. -/
def Event.engineSide : Event → Bool
  | .consoleLine _ => true
  | .consoleWrite _ => true
  | .consoleError => true
  | .newTransport => true
  | .newLoader _ => true
  | .engineMain => true
  | .engineErase => true
  | .fetchManifest _ => true
  | .fetchBinary _ => true
  | .engineWrite _ => true
  | _ => false

/-- Calls made by the read loop and by the cancelling of its reader. -/
def Event.monitorSide : Event → Bool
  | .getReader _ => true
  | .getReaderLocked _ => true
  | .readerCancel _ => true
  | .releaseLock _ => true
  | .monitorWrite _ => true
  | .monitorLine _ => true
  | .consoleError => true
  | _ => false

/-- A control-signal operation: a `setSignals` call or a timed delay. -/
def Event.signalOp : Event → Option Event
  | .setSignals d r => some (.setSignals d r)
  | .delay ms => some (.delay ms)
  | _ => none

/-- The baud rate of a `device.open` call. -/
def Event.openBaud : Event → Option Nat
  | .portOpen baud => some baud
  | _ => none

/-- The file array of a `writeFlash` call. -/
def Event.written : Event → Option (List FileEntry)
  | .engineWrite fileArray => some fileArray
  | _ => none

/-- The control-signal operations of a trace, in order. -/
def signalOps (tr : List Event) : List Event := tr.filterMap Event.signalOp

/-- The baud rates of the `device.open` calls of a trace, in order. -/
def opens (tr : List Event) : List Nat := tr.filterMap Event.openBaud

/-- The file arrays handed to `writeFlash` in a trace, in order. -/
def writes (tr : List Event) : List (List FileEntry) := tr.filterMap Event.written

/-- The state without the engine variables and without the trace. -/
def World.core (w : World) : World :=
  { w with transport := false, esploader := false, trace := [] }

/-- The variables and the port state that the read loop does not write. -/
def World.port (w : World) : Option Nat × Bool × Nat × Bool × Bool × List StartPc × Nat :=
  (w.device, w.readable, w.currentBaudRate, w.transport, w.esploader, w.starters, w.timers)

/-- The state in which the `try` block of `startFlashing` is entered, once
`stopSerialMonitor` and `device.close()` have succeeded. -/
def tryEntry (env : FlashEnv) (w : World) : World :=
  { emit .portClose (stopSerialMonitor env.cancel (emit (.consoleLine .preparing) w)).2 with
    readable := false }

/-- The double hardware reset: assert, 100 ms, release, 3000 ms, assert, 100 ms, release,
release, with `dataTerminalReady` false throughout. -/
def resetSequence : List Event :=
  [.setSignals false true, .delay 100, .setSignals false false, .delay 3000,
   .setSignals false true, .delay 100, .setSignals false false, .setSignals false false]

/-- The state at the call `startSerialMonitor()` of the restoration, once the reopen at
`monitorBaudRate` and the five signal calls have succeeded. -/
def afterReset (monitorBaudRate : Nat) (w : World) : World :=
  { w with
    readable := true
    trace := w.trace ++ [.consoleLine .restoring, .portOpen monitorBaudRate,
      .consoleLine .firstReset] ++ resetSequence }

/-- All parts of a manifest, builds in order and the parts of each build in order. -/
def Manifest.allParts (m : Manifest) : List Part :=
  (m.builds.map Build.parts).flatten

/-- Specification of the file list: one entry per part, in order; the entry of the part
at position `k` carries the bytes fetched by call `k` and the offset of that part. -/
def entriesFrom (bytes : Nat → List Nat) : Nat → List Part → List FileEntry
  | _, [] => []
  | k, part :: rest =>
    { data := binaryString (bytes k), address := part.offset } :: entriesFrom bytes (k + 1) rest

/-! ## The flash button of the page -/

/-- The click handler of the flash button in `script.js`, as far as the flag `isConnected`
of the page and the session are concerned: it returns at once when the page is not
connected, awaits `startFlashing`, and in its `catch` block clears `isConnected` when
`getConnectedPort()` is null. -/
def flashClick (env : FlashEnv) (selectedVersion : Option Version) (shouldEraseFlash : Bool)
    (flashBaudRate : Nat) (isConnected : Bool) (w : World) : Bool × World :=
  if !isConnected then (isConnected, w)
  else
    match startFlashing env selectedVersion shouldEraseFlash flashBaudRate w with
    | (.ok _, w) => (isConnected, w)
    | (.raise _, w) => (if (getConnectedPort w).isNone then false else isConnected, w)

/-- An environment in which the write to flash fails and the port cannot be reopened. -/
def FlashEnv.writeAndReopenFail : FlashEnv :=
  { FlashEnv.allOk with writeFlash := .raise (.env 7), reopen := .raise (.env 8) }

/-! ## Views of the monitor -/

/-- A write to the serial-monitor output sink (`serialMonitorTerminal`). -/
def Event.monitorSink : Event → Bool
  | .monitorWrite _ => true
  | .monitorLine _ => true
  | _ => false

/-- An acquisition of the read lock, or an attempt at one. -/
def Event.acquisition : Event → Bool
  | .getReader _ => true
  | .getReaderLocked _ => true
  | _ => false

/-- A call that would reconnect: a port selection or a `device.open`. -/
def Event.reconnection : Event → Bool
  | .requestPort => true
  | .portOpen _ => true
  | _ => false

/-! ## Runs of the monitor -/

/-- A step of a run of the monitor. -/
inductive MonitorStep where
  /-- the read pending in the read loop settles with this outcome -/
  | read (res : ReadResult)
  /-- a call of `stopSerialMonitor`, run to its return; `cancel` is the outcome of the
  cancel it may issue -/
  | stop (cancel : Res Unit)
  /-- a call of `startSerialMonitor`, run to its first suspension or to its return -/
  | start
  /-- the suspended activation of `startSerialMonitor` is resumed -/
  | resume
  deriving DecidableEq, Repr

/-- The effect of a step. -/
def MonitorStep.apply : MonitorStep → World → World
  | .read res, w =>
    match w.loops with
    | r :: _ => readLoopResume r res w
    | [] => w
  | .stop cancel, w => (stopSerialMonitor cancel w).2
  | .start, w => startSerialMonitorCall w
  | .resume, w =>
    match w.starters with
    | pc :: _ => startResume pc w
    | [] => w

/-- The state after a run. -/
def runSteps : List MonitorStep → World → World
  | [], w => w
  | s :: rest, w => runSteps rest (s.apply w)

/-- In the run, no call of `startSerialMonitor` is made while an activation of it is
suspended. -/
def noOverlap : List MonitorStep → World → Bool
  | [], _ => true
  | s :: rest, w =>
    (if s = .start then w.starters.isEmpty else true) && noOverlap rest (s.apply w)

/-- The lock discipline along a trace.  The state is the reader that holds the lock, if
any; `none` means that the discipline was broken: a lock acquired while one is held, or a
release of a lock that is not the one held. -/
def lockStep (st : Option (Option Nat)) (e : Event) : Option (Option Nat) :=
  match e with
  | .getReader r =>
    match st with
    | some none => some (some r)
    | _ => none
  | .releaseLock r =>
    match st with
    | some (some h) => if h = r then some none else none
    | _ => none
  | _ => st

/-- The reader that holds the lock after a trace in which every acquired lock was
released exactly once before the next acquisition; `none` when the trace breaks that
discipline. -/
def lockTrack (tr : List Event) : Option (Option Nat) :=
  tr.foldl lockStep (some none)

/-- The states of the runs: the read loop is the one of `monitorReader`, the lock
discipline was kept so far and the lock that is still held is the one of `monitorReader`,
at most one activation of `startSerialMonitor` is suspended, and a running read loop has
`keepReading` set. -/
def Disciplined (w : World) : Prop :=
  Settled w ∧ lockTrack w.trace = some w.monitorReader ∧
  (w.starters = [] ∨ (w.starters.length = 1 ∧ w.monitorReader = none)) ∧
  (w.monitorReader ≠ none → w.keepReading = true)

instance (w : World) : Decidable (Disciplined w) := by
  unfold Disciplined; infer_instance

/-- The session after a connect and the start of the monitor by the timer. -/
def World.started : World :=
  timerFire (connectToDevice { requestPort := .ok 1, close := .ok (), openPort := .ok () }
    115200 World.init).2

/-- A run of the monitor: data arrives, the stream ends and the loop acquires again, the
monitor is restarted, a read error ends the loop, the monitor is started again and then
stopped. -/
def sampleRun : List MonitorStep :=
  [.read (.chunk (some [72, 105])), .read .done, .start, .resume, .read .error, .start,
   .read (.chunk none), .stop (.raise (.env 4))]

/-- A run in which two activations of `startSerialMonitor` overlap: a call suspends in the
cancel of the running loop, a second call starts a read loop, the first activation resumes
(it clears `monitorReader` and fails to acquire the lock), and data is delivered to the
loop. -/
def overlappingRun : List MonitorStep :=
  [.start, .start, .resume, .read (.chunk (some [72, 105]))]

/-! ## Numbers of the runtime -/

/-- Rounding of a rational to the nearest integer, a tie going to the even one. -/
def roundHalfEven (x : ℚ) : ℤ :=
  if x - ⌊x⌋ < 1 / 2 then ⌊x⌋
  else if 1 / 2 < x - ⌊x⌋ then ⌊x⌋ + 1
  else if ⌊x⌋ % 2 = 0 then ⌊x⌋ else ⌊x⌋ + 1

/-- The first `s' ≥ s` with `2 ^ 52 ≤ x * 2 ^ s'`, looked for in `fuel` steps. -/
def shiftFrom (x : ℚ) : ℕ → ℕ → ℕ
  | 0, s => s
  | fuel + 1, s => if (2 : ℚ) ^ 52 ≤ x * 2 ^ s then s else shiftFrom x fuel (s + 1)

/-- For a rational `x` with `0 < x < 2 ^ 53`, the number `s` with
`2 ^ 52 ≤ x * 2 ^ s < 2 ^ 53`. -/
def shift (x : ℚ) : ℕ := shiftFrom x (52 + x.den) 0

/-- The binary64 number nearest to a rational `x` with `0 ≤ x < 2 ^ 53`: round to nearest,
ties to even, 53 significant bits. -/
def fl (x : ℚ) : ℚ :=
  if x ≤ 0 then 0 else (roundHalfEven (x * 2 ^ shift x) : ℚ) / 2 ^ shift x

/-- `Math.round` on a number with rational value `x`: the nearest integer, a tie going up. -/
def jsRound (x : ℚ) : ℤ := ⌊x + 1 / 2⌋

/-- The two computations of the progress callback on binary64 numbers: `written / total`
is rounded, its product with `100` or `20` is rounded again, and `toFixed(0)` and
`Math.round` take the nearest integer of that number, a tie going up.  A zero `total`
gives `NaN` or `Infinity`. -/
def NumberOps.ieee : NumberOps where
  percentage written total :=
    if total = 0 then (if written = 0 then "NaN" else "Infinity")
    else toString (jsRound (fl (fl ((written : ℚ) / total) * 100)))
  filled written total :=
    if total = 0 then (if written = 0 then .nan else .posInf)
    else .int (jsRound (fl (20 * fl ((written : ℚ) / total))))

/-! ## Theorems: the monitor -/

/-- The state `World.monitoring` is the one reached by a connect and the firing of its
timer, with an empty trace. -/
theorem monitoring_reached :
    World.monitoring =
      { timerFire (connectToDevice { requestPort := .ok 1, close := .ok (), openPort := .ok () }
          115200 World.init).2 with trace := [] } := by
  decide

/-- Stopping a settled monitor leaves no reader, no loop and no lock. -/
theorem stopSerialMonitor_settled (c : Res Unit) (w : World) (h : Settled w) :
    (stopSerialMonitor c w).2.keepReading = false ∧
    (stopSerialMonitor c w).2.monitorReader = none ∧
    (stopSerialMonitor c w).2.loops = [] ∧
    (stopSerialMonitor c w).2.lock = none ∧
    (stopSerialMonitor c w).2.device = w.device ∧
    (stopSerialMonitor c w).2.currentBaudRate = w.currentBaudRate ∧
    (stopSerialMonitor c w).2.readable = w.readable ∧
    (stopSerialMonitor c w).2.starters = w.starters ∧
    (stopSerialMonitor c w).2.timers = w.timers ∧
    (stopSerialMonitor c w).2.transport = w.transport ∧
    (stopSerialMonitor c w).2.nextReader = w.nextReader := by
  obtain ⟨hl, hk⟩ := h
  cases hm : w.monitorReader with
  | none =>
    simp [stopSerialMonitor, hm] at *
    simp [hl, hk]
  | some r =>
    simp [stopSerialMonitor, hm, cancelReader, emit, readLoopResume, readLoopFinally,
      readLoopEnter, hl, hk] at *

/-- With no reader recorded, `stopSerialMonitor` only clears `keepReading`. -/
theorem stopSerialMonitor_no_reader (c : Res Unit) (w : World) (h : w.monitorReader = none) :
    stopSerialMonitor c w = (.ok (), { w with keepReading := false }) := by
  simp [stopSerialMonitor, h]

/-- A disconnect from a state without device, reader or `keepReading` changes no
session variable. -/
theorem disconnectDevice_idle (env : DisconnectEnv) (w : World)
    (hd : w.device = none) (hm : w.monitorReader = none) (hk : w.keepReading = false) :
    SameSession w (disconnectDevice env w).2 := by
  have hw : ({ w with keepReading := false } : World) = w := by
    cases w
    simp only at hk
    simp [hk]
  simp [disconnectDevice, stopSerialMonitor_no_reader _ _ hm, hw, hd, hk, SameSession, emit]

/-! ## C1 -/

/-- C1, as the claim states it, fails: with the read loop running and `device.close()`
raising, `disconnectDevice` returns with the device handle still set. -/
theorem disconnectDevice_close_raises_keeps_device :
    ¬ ((disconnectDevice { cancel := .ok (), close := .raise (.env 1) } World.monitoring).2.device = none ∧
       (disconnectDevice { cancel := .ok (), close := .raise (.env 1) } World.monitoring).2.keepReading = false ∧
       (disconnectDevice { cancel := .ok (), close := .raise (.env 1) } World.monitoring).2.monitorReader = none) := by
  decide

/-- C1 (amended): from every settled state and for every outcome of the cancel and of the
close, `disconnectDevice` returns normally with `keepReading = false`, no reader recorded,
no read loop and no lock left.  The device handle is cleared when the cancel (if a reader
was recorded) and the close succeed; when one of them raises the handle is kept as it was.
After a disconnect that cleared the handle, a second `disconnectDevice` changes no session
variable. -/
theorem disconnectDevice_outcome (env : DisconnectEnv) (w : World) (h : Settled w) :
    (disconnectDevice env w).1 = .ok () ∧
    (disconnectDevice env w).2.keepReading = false ∧
    (disconnectDevice env w).2.monitorReader = none ∧
    (disconnectDevice env w).2.loops = [] ∧
    (disconnectDevice env w).2.lock = none ∧
    ((w.monitorReader = none ∨ env.cancel = .ok ()) → env.close = .ok () →
      (disconnectDevice env w).2.device = none) ∧
    (¬ ((w.monitorReader = none ∨ env.cancel = .ok ()) ∧ env.close = .ok ()) →
      (disconnectDevice env w).2.device = w.device) ∧
    ((disconnectDevice env w).2.device = none → ∀ env2 : DisconnectEnv,
      SameSession (disconnectDevice env w).2
        (disconnectDevice env2 (disconnectDevice env w).2).2) := by
  have hs := stopSerialMonitor_settled env.cancel w h
  obtain ⟨hk, hm, hl, hlk, hd, -⟩ := hs
  have key : (disconnectDevice env w).1 = .ok () ∧
      (disconnectDevice env w).2.keepReading = false ∧
      (disconnectDevice env w).2.monitorReader = none ∧
      (disconnectDevice env w).2.loops = [] ∧
      (disconnectDevice env w).2.lock = none ∧
      ((w.monitorReader = none ∨ env.cancel = .ok ()) → env.close = .ok () →
        (disconnectDevice env w).2.device = none) ∧
      (¬ ((w.monitorReader = none ∨ env.cancel = .ok ()) ∧ env.close = .ok ()) →
        (disconnectDevice env w).2.device = w.device) := by
    unfold disconnectDevice
    cases hs1 : stopSerialMonitor env.cancel w with
    | mk r w1 =>
      rw [hs1] at hk hm hl hlk hd
      simp only at hk hm hl hlk hd
      have hr : w.monitorReader ≠ none → r = env.cancel := by
        intro hne
        cases hmr : w.monitorReader with
        | none => exact absurd hmr hne
        | some x =>
          simp [stopSerialMonitor, hmr] at hs1
          exact hs1.1.symm
      cases r with
      | raise e =>
        have hne : w.monitorReader ≠ none := by
          intro hmr
          rw [stopSerialMonitor_no_reader _ _ hmr] at hs1
          cases hs1
        have hc := hr hne
        simp [disconnectCatch, emit, hk, hm, hl, hlk, hd, hne, ← hc]
      | ok u =>
        cases hdev : w1.device with
        | none =>
          simp [emit, hk, hm, hl, hlk, hdev, ← hd]
        | some p =>
          cases hc : env.close with
          | raise e => simp [disconnectCatch, emit, hk, hm, hl, hlk, hdev, ← hd]
          | ok u2 =>
            simp [emit, hk, hm, hl, hlk, hdev]
            intro h1 h2
            exact absurd (hr h1).symm h2
  obtain ⟨k1, k2, k3, k4, k5, k6, k7⟩ := key
  refine ⟨k1, k2, k3, k4, k5, k6, k7, ?_⟩
  intro hnone env2
  exact disconnectDevice_idle env2 _ hnone k3 k2

/-- C1 (amended), applied to a running monitor with both calls succeeding. -/
theorem disconnectDevice_outcome_witness :
    Settled World.monitoring ∧
    (disconnectDevice { cancel := .ok (), close := .ok () } World.monitoring).1 = .ok () ∧
    (disconnectDevice { cancel := .ok (), close := .ok () } World.monitoring).2.device = none :=
  ⟨by decide,
   (disconnectDevice_outcome { cancel := .ok (), close := .ok () } World.monitoring
      (by decide)).1,
   (disconnectDevice_outcome { cancel := .ok (), close := .ok () } World.monitoring
      (by decide)).2.2.2.2.2.1 (Or.inr rfl) rfl⟩

/-! ## C9 -/

/-- C9, as the claim states it, fails: after a read loop ended by itself on a read error no
loop is running and no reader is recorded, yet `stopSerialMonitor` changes `keepReading`. -/
theorem stopSerialMonitor_after_read_error_changes_state :
    World.afterReadError.monitorReader = none ∧ World.afterReadError.loops = [] ∧
    ¬ SameSession World.afterReadError (stopSerialMonitor (.ok ()) World.afterReadError).2 := by
  decide

/-- C9 (amended): in every state with no reader recorded, `stopSerialMonitor` returns
normally, issues no call (the trace is unchanged), and changes nothing but `keepReading`,
which it sets to `false`; the state is unchanged when `keepReading` was already `false`,
and stopping twice is the same as stopping once. -/
theorem stopSerialMonitor_idle (c c2 : Res Unit) (w : World) (h : w.monitorReader = none) :
    stopSerialMonitor c w = (.ok (), { w with keepReading := false }) ∧
    (stopSerialMonitor c w).2.trace = w.trace ∧
    (w.keepReading = false → (stopSerialMonitor c w).2 = w) ∧
    stopSerialMonitor c2 (stopSerialMonitor c w).2 = stopSerialMonitor c w := by
  have h1 := stopSerialMonitor_no_reader c w h
  refine ⟨h1, by rw [h1], ?_, ?_⟩
  · intro hk
    rw [h1]
    cases w
    simp only at hk
    simp [hk]
  · rw [h1, stopSerialMonitor_no_reader c2 _ (by simpa using h)]

/-- C9 (amended), applied to the state left by a read error. -/
theorem stopSerialMonitor_idle_witness :
    World.afterReadError.monitorReader = none ∧
    (stopSerialMonitor (.raise .typeError) World.afterReadError).1 = .ok () ∧
    (stopSerialMonitor (.raise .typeError) World.afterReadError).2.trace =
      World.afterReadError.trace :=
  ⟨by decide,
   congrArg Prod.fst
     (stopSerialMonitor_idle (.raise .typeError) (.ok ()) World.afterReadError (by decide)).1,
   (stopSerialMonitor_idle (.raise .typeError) (.ok ()) World.afterReadError (by decide)).2.1⟩

/-! ## C10 -/

/-- C10, as the claim states it, fails: when the port is selected and `open` raises,
`connectToDevice` raises with the selected port left in `device`. -/
theorem connectToDevice_open_raises_keeps_device :
    (connectToDevice { requestPort := .ok 1, close := .ok (), openPort := .raise (.env 1) }
      115200 World.init).1 = .raise (.env 1) ∧
    ¬ (connectToDevice { requestPort := .ok 1, close := .ok (), openPort := .raise (.env 1) }
      115200 World.init).2.device = none := by
  decide

/-- C10 (amended): from a state with no device handle and no open port, a connect attempt
whose port selection raises `e`, or whose `open` call raises `e`, raises `e` to the caller,
leaves the recorded baud rate, `keepReading`, the reader and the read loops unchanged,
leaves the port not open and schedules no start of the read loop.  When the selection
fails no device handle is held; when `open` fails the selected port stays in `device`. -/
theorem connectToDevice_failure (env : ConnectEnv) (baudrate : Nat) (w : World) (e : Err)
    (hdev : w.device = none) (hclosed : w.readable = false)
    (hfail : env.requestPort = .raise e ∨
      ((∃ p, env.requestPort = .ok p) ∧ env.openPort = .raise e)) :
    (connectToDevice env baudrate w).1 = .raise e ∧
    (connectToDevice env baudrate w).2.currentBaudRate = w.currentBaudRate ∧
    (connectToDevice env baudrate w).2.keepReading = w.keepReading ∧
    (connectToDevice env baudrate w).2.monitorReader = w.monitorReader ∧
    (connectToDevice env baudrate w).2.loops = w.loops ∧
    (connectToDevice env baudrate w).2.starters = w.starters ∧
    (connectToDevice env baudrate w).2.readable = false ∧
    (connectToDevice env baudrate w).2.timers = w.timers ∧
    (∀ ms, Event.scheduleStart ms ∉ (connectToDevice env baudrate w).2.trace ∨
      Event.scheduleStart ms ∈ w.trace) ∧
    (env.requestPort = .raise e → (connectToDevice env baudrate w).2.device = none) ∧
    (∀ p, env.requestPort = .ok p → (connectToDevice env baudrate w).2.device = some p) := by
  rcases hfail with hr | ⟨⟨p, hp⟩, ho⟩
  · simp [connectToDevice, hdev, hr, connectCatch, emit, hclosed]
    intro ms
    exact em' _
  · simp [connectToDevice, hdev, hp, ho, connectCatch, emit, hclosed]
    intro ms
    exact em' _

/-- C10 (amended), applied to a failing port selection and to a failing `open`. -/
theorem connectToDevice_failure_witness :
    (connectToDevice { requestPort := .raise (.env 2), close := .ok (), openPort := .ok () }
      9600 World.init).2.device = none ∧
    (connectToDevice { requestPort := .ok 1, close := .ok (), openPort := .raise (.env 1) }
      9600 World.init).2.currentBaudRate = 115200 :=
  ⟨(connectToDevice_failure
      { requestPort := .raise (.env 2), close := .ok (), openPort := .ok () } 9600 World.init
      (.env 2) rfl rfl (Or.inl rfl)).2.2.2.2.2.2.2.2.2.1 rfl,
   (connectToDevice_failure
      { requestPort := .ok 1, close := .ok (), openPort := .raise (.env 1) } 9600 World.init
      (.env 1) rfl rfl (Or.inr ⟨⟨1, rfl⟩, rfl⟩)).2.1⟩

/-! ## C2 -/

/-- C2, as the claim states it, fails: with a device handle that is cached but not open
(left by a connect whose `open` failed), `startFlashing` passes its check, calls
`device.close()` and raises what that call raises. -/
theorem startFlashing_cached_handle_does_port_calls :
    World.openFailed.device = some 1 ∧ World.openFailed.readable = false ∧
    (startFlashing { FlashEnv.allOk with close := .raise (.env 3) } (some Version.sample)
      false 921600 World.openFailed).1 = .raise (.env 3) ∧
    (startFlashing { FlashEnv.allOk with close := .raise (.env 3) } (some Version.sample)
      false 921600 World.openFailed).1 ≠ .raise .notConnected ∧
    Event.portClose ∈ (startFlashing { FlashEnv.allOk with close := .raise (.env 3) }
      (some Version.sample) false 921600 World.openFailed).2.trace ∧
    Event.portClose ∉ World.openFailed.trace := by
  decide

/-- C2 (amended): in every state with no device handle, `startFlashing` raises the
not-connected error and changes nothing: no call is issued and no variable is written. -/
theorem startFlashing_no_device (env : FlashEnv) (selectedVersion : Option Version)
    (eraseFlash : Bool) (flashBaudRate : Nat) (w : World) (h : w.device = none) :
    startFlashing env selectedVersion eraseFlash flashBaudRate w = (.raise .notConnected, w) := by
  simp [startFlashing, h]

/-- C2 (amended), applied to the state of the freshly loaded module. -/
theorem startFlashing_no_device_witness :
    startFlashing FlashEnv.allOk (some Version.sample) true 921600 World.init =
      (.raise .notConnected, World.init) :=
  startFlashing_no_device FlashEnv.allOk (some Version.sample) true 921600 World.init rfl

/-! ## C7 -/

theorem andThen_ok {α β : Type} (a : α) (w : World) (f : α → World → Res β × World) :
    andThen (.ok a, w) f = f a w := rfl

/-- A callback whose rendering succeeds writes exactly when the line changed. -/
theorem progressBar_ok (ops : NumberOps) (n : Nat) (last line : String) (i wr t : Nat)
    (w : World) (h : renderLine ops n i wr t = .ok line) :
    progressBar ops n last i wr t w =
      if line ≠ last then (.ok line, emit (progressWrite (last, line)) w) else (.ok last, w) := by
  simp [progressBar, h, progressWrite]

/-- The trace of a sequence of callbacks is the trace of the specification. -/
theorem reportAll_trace (ops : NumberOps) (n : Nat) (cbs : List (Nat × Nat × Nat)) :
    ∀ (last : String) (w : World),
      (reportAll ops n cbs last w).2.trace =
        w.trace ++ (emittedLines last (renderedLines ops n cbs)).map progressWrite := by
  induction cbs with
  | nil => intro last w; simp [reportAll, renderedLines, emittedLines]
  | cons cb rest ih =>
    intro last w
    obtain ⟨i, wr, t⟩ := cb
    cases h : renderLine ops n i wr t with
    | raise e => simp [reportAll, renderedLines, emittedLines, progressBar, h, andThen]
    | ok line =>
      have hr : renderedLines ops n ((i, wr, t) :: rest) = line :: renderedLines ops n rest := by
        simp [renderedLines, h]
      rw [hr]
      by_cases hl : line = last
      · subst hl
        simp [reportAll, emittedLines, progressBar_ok _ _ _ _ _ _ _ _ h, andThen_ok, ih]
      · simp [reportAll, emittedLines, progressBar_ok _ _ _ _ _ _ _ _ h, andThen_ok, ih, hl,
          emit]

/-- No two lines emitted in a row are equal, and the first differs from `last`. -/
theorem emittedLines_chain (lines : List String) :
    ∀ last : String,
      List.Chain (fun a b => b ≠ a) last ((emittedLines last lines).map Prod.snd) := by
  induction lines with
  | nil => intro last; simp [emittedLines]
  | cons line rest ih =>
    intro last
    by_cases hl : line = last
    · subst hl
      simpa [emittedLines] using ih line
    · simp [emittedLines, hl, ih line]

/-- A rendered line is never the empty text. -/
theorem renderLine_ne_empty (ops : NumberOps) (n i wr t : Nat) (line : String)
    (h : renderLine ops n i wr t = .ok line) : line ≠ "" := by
  unfold renderLine at h
  cases h1 : jsRepeat '█' (ops.filled wr t) with
  | raise e => simp [h1] at h
  | ok full =>
    cases h2 : jsRepeat '-' (JsNum.subFrom 20 (ops.filled wr t)) with
    | raise e => simp [h1, h2] at h
    | ok rest =>
      simp [h1, h2] at h
      subst h
      intro hc
      have := congrArg String.length hc
      simp [String.length_append] at this
      exact absurd this.2 (by decide)

/-- The rendered line depends on the ratio only through the percentage text and the
number of filled cells. -/
theorem renderLine_congr (ops : NumberOps) (n i wr t wr2 t2 : Nat)
    (hp : ops.percentage wr t = ops.percentage wr2 t2)
    (hf : ops.filled wr t = ops.filled wr2 t2) :
    renderLine ops n i wr t = renderLine ops n i wr2 t2 := by
  simp [renderLine, hp, hf]

/-- C7: for every sequence of progress callbacks the writes of the renderer are those of
the specification "emit a rendered line only when it differs from the line emitted last",
so no rendered line is emitted twice in a row; a callback whose rendered line equals the
line emitted last writes nothing, one whose rendered line differs writes exactly once; two
consecutive callbacks for the same file with the same percentage text and the same number
of filled cells produce one write. -/
theorem progress_never_repeats (ops : NumberOps) (n : Nat) (cbs : List (Nat × Nat × Nat))
    (last : String) (w : World) :
    (reportAll ops n cbs last w).2.trace =
      w.trace ++ (emittedLines last (renderedLines ops n cbs)).map progressWrite ∧
    List.Chain (fun a b => b ≠ a) last
      ((emittedLines last (renderedLines ops n cbs)).map Prod.snd) ∧
    (∀ i wr t line, renderLine ops n i wr t = .ok line →
      (line = last → progressBar ops n last i wr t w = (.ok last, w)) ∧
      (line ≠ last →
        progressBar ops n last i wr t w = (.ok line, emit (progressWrite (last, line)) w))) ∧
    (∀ i wr t wr2 t2 line, renderLine ops n i wr t = .ok line →
      ops.percentage wr t = ops.percentage wr2 t2 → ops.filled wr t = ops.filled wr2 t2 →
      (reportAll ops n [(i, wr, t), (i, wr2, t2)] "" w).2.trace =
        w.trace ++ [progressWrite ("", line)]) := by
  refine ⟨reportAll_trace ops n cbs last w, emittedLines_chain _ last, ?_, ?_⟩
  · intro i wr t line h
    rw [progressBar_ok ops n last line i wr t w h]
    constructor
    · intro hl; simp [hl]
    · intro hl; simp [hl]
  · intro i wr t wr2 t2 line h hp hf
    have h2 : renderLine ops n i wr2 t2 = .ok line := by
      rw [← renderLine_congr ops n i wr t wr2 t2 hp hf]; exact h
    have hne := renderLine_ne_empty ops n i wr t line h
    rw [reportAll_trace]
    simp [renderedLines, h, h2, emittedLines, hne]

/-- C7, applied to a report of 50 of 100 bytes made twice: one write. -/
theorem progress_never_repeats_witness :
    (reportAll NumberOps.exact 2 [(0, 50, 100), (0, 50, 100)] "" World.init).2.trace =
      [.consoleWrite "File 1/2 [██████████----------] 50% "] :=
  ((progress_never_repeats NumberOps.exact 2 [] "" World.init).2.2.2 0 50 100 50 100
    "File 1/2 [██████████----------] 50% " (by decide) rfl rfl).trans (by decide)

/-! ## Theorems: flashing -/

/-- A property kept by the first computation and by the continuation is kept by `andThen`. -/
theorem andThen_keeps {α β : Type} {P : World → Prop} {x : Res α × World}
    {f : α → World → Res β × World} (hx : P x.2) (hf : ∀ a w, P w → P (f a w).2) :
    P (andThen x f).2 := by
  obtain ⟨r, w⟩ := x
  cases r with
  | ok a => exact hf a w hx
  | raise e => exact hx

theorem fetchParts_keeps {P : World → Prop} (env : FlashEnv) (base : String)
    (hemit : ∀ e w, e.engineSide = true → P w → P (emit e w)) (parts : List Part) :
    ∀ (acc : List FileEntry) (w : World), P w → P (fetchParts env base parts acc w).2 := by
  induction parts with
  | nil => intro acc w hw; exact hw
  | cons part rest ih =>
    intro acc w hw
    unfold fetchParts
    refine andThen_keeps (hemit _ _ rfl hw) (fun _ w hw => ?_)
    refine andThen_keeps ?_ (fun _ w hw => ih _ w hw)
    unfold fetchBinaryFile
    refine andThen_keeps (hemit _ _ rfl hw) (fun response w hw => ?_)
    split
    · exact hw
    · split <;> exact hw

theorem fetchBuilds_keeps {P : World → Prop} (env : FlashEnv) (base : String)
    (hemit : ∀ e w, e.engineSide = true → P w → P (emit e w)) (builds : List Build) :
    ∀ (acc : List FileEntry) (w : World), P w → P (fetchBuilds env base builds acc w).2 := by
  induction builds with
  | nil => intro acc w hw; exact hw
  | cons build rest ih =>
    intro acc w hw
    unfold fetchBuilds
    exact andThen_keeps (fetchParts_keeps env base hemit _ _ _ hw) (fun _ w hw => ih _ w hw)

theorem reportAll_keeps {P : World → Prop} (ops : NumberOps) (n : Nat)
    (hemit : ∀ e w, e.engineSide = true → P w → P (emit e w)) (cbs : List (Nat × Nat × Nat)) :
    ∀ (last : String) (w : World), P w → P (reportAll ops n cbs last w).2 := by
  induction cbs with
  | nil => intro last w hw; exact hw
  | cons cb rest ih =>
    intro last w hw
    obtain ⟨i, wr, t⟩ := cb
    unfold reportAll
    refine andThen_keeps ?_ (fun _ w hw => ih _ w hw)
    unfold progressBar
    split
    · exact hw
    · split
      · exact hemit _ _ rfl hw
      · exact hw

/-- A property that is kept by the calls of the `try` block and by the assignments to
`transport` and `esploader` is kept by the `try` block, whatever its outcome. -/
theorem flashTry_keeps {P : World → Prop} (env : FlashEnv) (v : Option Version)
    (eraseFlash : Bool) (fb : Nat)
    (hemit : ∀ e w, e.engineSide = true → P w → P (emit e w))
    (htr : ∀ w, P w → P { w with transport := true })
    (hes : ∀ w, P w → P { w with esploader := true })
    (w : World) (hw : P w) : P (flashTry env v eraseFlash fb w).2 := by
  unfold flashTry
  refine andThen_keeps (hemit _ _ rfl hw) (fun _ w hw => ?_)
  refine andThen_keeps (hemit _ _ rfl hw) (fun _ w hw => ?_)
  refine andThen_keeps (hemit _ _ rfl (htr _ hw)) (fun _ w hw => ?_)
  refine andThen_keeps (hemit _ _ rfl (hes _ hw)) (fun _ w hw => ?_)
  refine andThen_keeps (hemit _ _ rfl hw) (fun _ w hw => ?_)
  refine andThen_keeps (by split; exact hemit _ _ rfl hw; exact hw) (fun _ w hw => ?_)
  refine andThen_keeps (hemit _ _ rfl hw) (fun _ w hw => ?_)
  split
  · exact hw
  · refine andThen_keeps (hemit _ _ rfl hw) (fun resp w hw => ?_)
    split
    · exact hw
    · refine andThen_keeps hw (fun m w hw => ?_)
      unfold flashParts
      refine andThen_keeps (fetchBuilds_keeps env _ hemit _ _ _ hw) (fun fa w hw => ?_)
      refine andThen_keeps (hemit _ _ rfl hw) (fun _ w hw => ?_)
      refine andThen_keeps (reportAll_keeps _ _ hemit _ _ _ (hemit _ _ rfl hw))
        (fun _ w hw => ?_)
      refine andThen_keeps hw (fun _ w hw => ?_)
      exact hemit _ _ rfl hw

/-- The `catch` block keeps what the calls of the `try` block keep. -/
theorem flashCatch_keeps {P : World → Prop} (r : Res Unit × World)
    (hemit : ∀ e w, e.engineSide = true → P w → P (emit e w)) (hr : P r.2) :
    P (flashCatch r).2 := by
  obtain ⟨o, w⟩ := r
  cases o with
  | ok a => exact hr
  | raise e => exact hemit _ _ rfl (hemit _ _ rfl hr)

/-- The outcome of `try ... catch` is the outcome of the `try` block. -/
theorem flashCatch_fst (r : Res Unit × World) : (flashCatch r).1 = r.1 := by
  obtain ⟨o, w⟩ := r
  cases o <;> rfl

theorem filterMap_replicate_none {β : Type} (g : Event → Option β) (e : Event)
    (h : g e = none) (k : Nat) : (List.replicate k e).filterMap g = [] := by
  induction k with
  | zero => rfl
  | succ k ih => simp [List.replicate_succ, List.filterMap_cons, h, ih]

theorem signalOp_engineSide (e : Event) (h : e.engineSide = true) : e.signalOp = none := by
  cases e <;> simp_all [Event.engineSide, Event.signalOp]

theorem openBaud_engineSide (e : Event) (h : e.engineSide = true) : e.openBaud = none := by
  cases e <;> simp_all [Event.engineSide, Event.openBaud]

theorem signalOp_monitorSide (e : Event) (h : e.monitorSide = true) : e.signalOp = none := by
  cases e <;> simp_all [Event.monitorSide, Event.signalOp]

theorem openBaud_monitorSide (e : Event) (h : e.monitorSide = true) : e.openBaud = none := by
  cases e <;> simp_all [Event.monitorSide, Event.openBaud]

theorem written_monitorSide (e : Event) (h : e.monitorSide = true) : e.written = none := by
  cases e <;> simp_all [Event.monitorSide, Event.written]

/-- The `finally` block of `readLoop` issues calls of the monitor side only and leaves the
port and the flags as they are. -/
theorem readLoopFinally_frame {β : Type} (g : Event → Option β)
    (hg : ∀ e, e.monitorSide = true → g e = none) (w : World) :
    (readLoopFinally w).trace.filterMap g = w.trace.filterMap g ∧
    (readLoopFinally w).port = w.port ∧
    (readLoopFinally w).keepReading = w.keepReading := by
  unfold readLoopFinally
  cases w.monitorReader with
  | none => simp
  | some r =>
    simp [World.port, List.filterMap_append, hg (.releaseLock r) rfl,
      filterMap_replicate_none g .consoleError (hg .consoleError rfl)]

/-- Entering `readLoop` issues calls of the monitor side only and leaves the port and the
flags as they are. -/
theorem readLoopEnter_frame {β : Type} (g : Event → Option β)
    (hg : ∀ e, e.monitorSide = true → g e = none) (w : World) :
    (readLoopEnter w).trace.filterMap g = w.trace.filterMap g ∧
    (readLoopEnter w).port = w.port ∧
    (readLoopEnter w).keepReading = w.keepReading := by
  unfold readLoopEnter
  split
  · cases hl : w.lock with
    | none => simp [World.port, emit, List.filterMap_append, hg (.getReader _) rfl]
    | some holder =>
      obtain ⟨h1, h2, h3⟩ :=
        readLoopFinally_frame g hg (emit .consoleError (emit (.getReaderLocked holder) w))
      simp only [h1, h2, h3]
      simp [World.port, emit, List.filterMap_append, hg (.getReaderLocked holder) rfl,
        hg .consoleError rfl]
  · simp

/-- Cancelling a reader issues calls of the monitor side only and leaves the port and
the flags as they are. -/
theorem cancelReader_frame {β : Type} (g : Event → Option β)
    (hg : ∀ e, e.monitorSide = true → g e = none) (r : Nat) (w : World) :
    (cancelReader r w).trace.filterMap g = w.trace.filterMap g ∧
    (cancelReader r w).port = w.port ∧
    (cancelReader r w).keepReading = w.keepReading := by
  simp only [cancelReader]
  split
  · simp only [readLoopResume]
    obtain ⟨h1, h2, h3⟩ := readLoopEnter_frame g hg (readLoopFinally
      { emit (.readerCancel r) w with loops := (emit (.readerCancel r) w).loops.erase r })
    obtain ⟨k1, k2, k3⟩ := readLoopFinally_frame g hg
      { emit (.readerCancel r) w with loops := (emit (.readerCancel r) w).loops.erase r }
    simp only [h1, h2, h3, k1, k2, k3]
    simp [World.port, emit, List.filterMap_append, hg (.readerCancel r) rfl]
  · simp [World.port, emit, List.filterMap_append, hg (.readerCancel r) rfl]

/-- Stopping the monitor issues calls of the monitor side only, clears `keepReading` and
leaves the port as it is. -/
theorem stopSerialMonitor_frame {β : Type} (g : Event → Option β)
    (hg : ∀ e, e.monitorSide = true → g e = none) (c : Res Unit) (w : World) :
    (stopSerialMonitor c w).2.trace.filterMap g = w.trace.filterMap g ∧
    (stopSerialMonitor c w).2.port = w.port ∧
    (stopSerialMonitor c w).2.keepReading = false := by
  unfold stopSerialMonitor
  cases hm : w.monitorReader with
  | none => simp [World.port]
  | some r =>
    obtain ⟨h1, h2, h3⟩ := cancelReader_frame g hg r { w with keepReading := false }
    simp only [hm] at h1 h2 h3
    simp only [h1, h2, h3]
    simp [World.port]

/-- `stopSerialMonitor` raises only what the cancel of a recorded reader raises. -/
theorem stopSerialMonitor_fst (c : Res Unit) (w : World)
    (h : w.monitorReader = none ∨ c = .ok ()) : (stopSerialMonitor c w).1 = .ok () := by
  unfold stopSerialMonitor
  cases hm : w.monitorReader with
  | none => rfl
  | some r =>
    rcases h with h | h
    · rw [hm] at h; cases h
    · simp [h]

/-- Once the check, the stop of the monitor and the close have passed, `startFlashing` is
its guarded block run from `tryEntry`. -/
theorem startFlashing_entered (env : FlashEnv) (v : Option Version) (eraseFlash : Bool)
    (fb : Nat) (w : World) (hdev : w.device ≠ none)
    (hstop : w.monitorReader = none ∨ env.cancel = .ok ()) (hclose : env.close = .ok ()) :
    startFlashing env v eraseFlash fb w =
      flashGuarded env v eraseFlash fb w.currentBaudRate (tryEntry env w) := by
  have h1 : (stopSerialMonitor env.cancel (emit (.consoleLine .preparing) w)).1 = .ok () :=
    stopSerialMonitor_fst _ _ (by simpa [emit] using hstop)
  have hd : w.device.isNone = false := by
    cases hw : w.device with
    | none => exact absurd hw hdev
    | some p => rfl
  unfold startFlashing
  simp only [hd, say, andThen_ok]
  cases hs : stopSerialMonitor env.cancel (emit (.consoleLine .preparing) w) with
  | mk r w1 =>
    rw [hs] at h1
    simp only at h1
    subst h1
    simp [andThen, call, hclose, tryEntry, hs]

/-- The restoration, when the reopen and the five signal calls succeed: the new read loop
is entered from `afterReset`. -/
theorem restore_eq (env : FlashEnv) (mb : Nat) (w : World)
    (hreopen : env.reopen = .ok ()) (hsig : ∀ k, env.setSignals k = .ok ())
    (hk : w.keepReading = false) (hdev : w.device ≠ none) :
    restore env mb w =
      emit (.consoleLine .deviceReady)
        (readLoopEnter { afterReset mb w with keepReading := true }) := by
  have hd : w.device.isNone = false := by
    cases hw : w.device with
    | none => exact absurd hw hdev
    | some p => rfl
  simp [restore, restoreTry, doubleReset, andThen, call, say, hreopen, hsig,
    startSerialMonitorCall, hk, startFromDevice, hd, startTail, emit, afterReset, resetSequence]

/-- What the restoration leaves, when the reopen and the five signal calls succeed. -/
theorem restore_ok (env : FlashEnv) (mb : Nat) (w : World)
    (hreopen : env.reopen = .ok ()) (hsig : ∀ k, env.setSignals k = .ok ())
    (hk : w.keepReading = false) (hdev : w.device ≠ none) :
    signalOps (restore env mb w).trace = signalOps w.trace ++ resetSequence ∧
    opens (restore env mb w).trace = opens w.trace ++ [mb] ∧
    writes (restore env mb w).trace = writes w.trace ∧
    (restore env mb w).port =
      (w.device, true, w.currentBaudRate, w.transport, w.esploader, w.starters, w.timers) ∧
    (restore env mb w).keepReading = true ∧
    (w.lock = none → w.loops = [] →
      (restore env mb w).monitorReader = some w.nextReader ∧
      (restore env mb w).loops = [w.nextReader] ∧
      (restore env mb w).lock = some w.nextReader) := by
  rw [restore_eq env mb w hreopen hsig hk hdev]
  obtain ⟨s1, p1, k1⟩ := readLoopEnter_frame Event.signalOp signalOp_monitorSide
    { afterReset mb w with keepReading := true }
  obtain ⟨s2, -, -⟩ := readLoopEnter_frame Event.openBaud openBaud_monitorSide
    { afterReset mb w with keepReading := true }
  obtain ⟨s3, -, -⟩ := readLoopEnter_frame Event.written written_monitorSide
    { afterReset mb w with keepReading := true }
  refine ⟨?_, ?_, ?_, ?_, ?_, ?_⟩
  · simp only [signalOps, emit, List.filterMap_append, s1]
    simp [afterReset, resetSequence, List.filterMap_append, Event.signalOp]
  · simp only [opens, emit, List.filterMap_append, s2]
    simp [afterReset, resetSequence, List.filterMap_append, Event.openBaud]
  · simp only [writes, emit, List.filterMap_append, s3]
    simp [afterReset, resetSequence, List.filterMap_append, Event.written]
  · have : (emit (.consoleLine .deviceReady)
        (readLoopEnter { afterReset mb w with keepReading := true })).port =
        (readLoopEnter { afterReset mb w with keepReading := true }).port := rfl
    rw [this, p1]
    simp [World.port, afterReset]
  · have : (emit (.consoleLine .deviceReady)
        (readLoopEnter { afterReset mb w with keepReading := true })).keepReading =
        (readLoopEnter { afterReset mb w with keepReading := true }).keepReading := rfl
    rw [this, k1]
  · intro hl hlo
    have hd : w.device.isSome = true := by
      cases hw : w.device with
      | none => exact absurd hw hdev
      | some p => rfl
    simp [readLoopEnter, afterReset, emit, hl, hlo, hd]

/-- The state in which the `try` block is entered. -/
theorem tryEntry_frame {β : Type} (g : Event → Option β)
    (hg : ∀ e, e.monitorSide = true → g e = none)
    (hl : ∀ m, g (.consoleLine m) = none) (hc : g .portClose = none)
    (env : FlashEnv) (w : World) :
    (tryEntry env w).trace.filterMap g = w.trace.filterMap g ∧
    (tryEntry env w).port =
      (w.device, false, w.currentBaudRate, w.transport, w.esploader, w.starters, w.timers) ∧
    (tryEntry env w).keepReading = false := by
  obtain ⟨h1, h2, h3⟩ :=
    stopSerialMonitor_frame g hg env.cancel (emit (.consoleLine .preparing) w)
  refine ⟨?_, ?_, ?_⟩
  · simp only [tryEntry, emit, List.filterMap_append] at h1 ⊢
    simp [h1, hl, hc]
  · simp only [World.port, Prod.mk.injEq] at h2
    obtain ⟨a, b, c, d, e, f, k⟩ := h2
    simp only [tryEntry, World.port, emit] at a b c d e f k ⊢
    simp [a, c, d, e, f, k]
  · simpa [tryEntry, emit] using h3

/-- The read loop state in which the `try` block is entered from a settled state. -/
theorem tryEntry_settled (env : FlashEnv) (w : World) (h : Settled w) :
    (tryEntry env w).monitorReader = none ∧ (tryEntry env w).loops = [] ∧
    (tryEntry env w).lock = none ∧ (tryEntry env w).nextReader = w.nextReader := by
  have hs : Settled (emit (.consoleLine .preparing) w) := h
  obtain ⟨-, h2, h3, h4, -, -, -, -, -, -, h11⟩ :=
    stopSerialMonitor_settled env.cancel (emit (.consoleLine .preparing) w) hs
  simp only [tryEntry, emit] at h2 h3 h4 h11 ⊢
  exact ⟨h2, h3, h4, h11⟩

/-- The `try` and `catch` blocks leave the session variables, the port state and the read
loop as they are, and issue no port call. -/
theorem flashCatch_flashTry_frame {β : Type} (g : Event → Option β)
    (hg : ∀ e, e.engineSide = true → g e = none)
    (env : FlashEnv) (v : Option Version) (eraseFlash : Bool) (fb : Nat) (w : World) :
    (flashCatch (flashTry env v eraseFlash fb w)).2.core = w.core ∧
    (flashCatch (flashTry env v eraseFlash fb w)).2.trace.filterMap g = w.trace.filterMap g := by
  have hemit : ∀ (e : Event) (w' : World), e.engineSide = true →
      (w'.core = w.core ∧ w'.trace.filterMap g = w.trace.filterMap g) →
      ((emit e w').core = w.core ∧ (emit e w').trace.filterMap g = w.trace.filterMap g) := by
    intro e w' he h
    refine ⟨h.1, ?_⟩
    simp [emit, List.filterMap_append, hg e he, h.2]
  exact flashCatch_keeps _ hemit
    (flashTry_keeps env v eraseFlash fb hemit (fun w' h => h) (fun w' h => h) w ⟨rfl, rfl⟩)

/-- The `finally` block when `transport.disconnect()` does not raise. -/
theorem flashFinally_eq (env : FlashEnv) (mb : Nat) (w : World)
    (hdisc : env.disconnect = .ok ()) :
    flashFinally env mb w =
      (.ok (), restore env mb
        (if w.transport then
          { emit .transportDisconnect w with
            readable := false, transport := false, esploader := false }
        else w)) := by
  unfold flashFinally
  cases ht : w.transport <;> simp [andThen, call, hdisc]

/-- A run of `startFlashing` that passes its check, stops the monitor and closes the
port, and whose engine disconnect, reopen and signal calls succeed. -/
theorem startFlashing_restored (env : FlashEnv) (v : Option Version) (eraseFlash : Bool)
    (fb : Nat) (w : World) (hdev : w.device ≠ none)
    (hstop : w.monitorReader = none ∨ env.cancel = .ok ()) (hclose : env.close = .ok ())
    (hdisc : env.disconnect = .ok ()) (hreopen : env.reopen = .ok ())
    (hsig : ∀ k, env.setSignals k = .ok ()) :
    (startFlashing env v eraseFlash fb w).1 = (flashTry env v eraseFlash fb (tryEntry env w)).1 ∧
    signalOps (startFlashing env v eraseFlash fb w).2.trace = signalOps w.trace ++ resetSequence ∧
    opens (startFlashing env v eraseFlash fb w).2.trace = opens w.trace ++ [w.currentBaudRate] ∧
    (startFlashing env v eraseFlash fb w).2.device = w.device ∧
    (startFlashing env v eraseFlash fb w).2.readable = true ∧
    (startFlashing env v eraseFlash fb w).2.currentBaudRate = w.currentBaudRate ∧
    (startFlashing env v eraseFlash fb w).2.transport = false ∧
    (startFlashing env v eraseFlash fb w).2.keepReading = true ∧
    (Settled w →
      (startFlashing env v eraseFlash fb w).2.monitorReader = some w.nextReader ∧
      (startFlashing env v eraseFlash fb w).2.loops = [w.nextReader] ∧
      (startFlashing env v eraseFlash fb w).2.lock = some w.nextReader) := by
  rw [startFlashing_entered env v eraseFlash fb w hdev hstop hclose]
  unfold flashGuarded
  simp only [flashFinally_eq _ _ _ hdisc, flashCatch_fst]
  -- the state at the end of `try ... catch`
  obtain ⟨c1, t1⟩ := flashCatch_flashTry_frame Event.signalOp signalOp_engineSide
    env v eraseFlash fb (tryEntry env w)
  obtain ⟨-, t2⟩ := flashCatch_flashTry_frame Event.openBaud openBaud_engineSide
    env v eraseFlash fb (tryEntry env w)
  obtain ⟨e1, e2, e3⟩ := tryEntry_frame Event.signalOp signalOp_monitorSide
    (fun _ => rfl) rfl env w
  obtain ⟨f1, -, -⟩ := tryEntry_frame Event.openBaud openBaud_monitorSide
    (fun _ => rfl) rfl env w
  generalize flashCatch (flashTry env v eraseFlash fb (tryEntry env w)) = r at c1 t1 t2 ⊢
  obtain ⟨o, w3⟩ := r
  simp only at c1 t1 t2 ⊢
  -- fields of `w3`
  have hcore : w3.device = (tryEntry env w).device ∧ w3.keepReading = (tryEntry env w).keepReading ∧
      w3.currentBaudRate = (tryEntry env w).currentBaudRate ∧
      w3.lock = (tryEntry env w).lock ∧ w3.loops = (tryEntry env w).loops ∧
      w3.monitorReader = (tryEntry env w).monitorReader ∧
      w3.nextReader = (tryEntry env w).nextReader := by
    simp only [World.core, World.mk.injEq] at c1
    obtain ⟨a1, -, -, a4, a5, a6, a7, a8, a9, a10, a11, a12, -⟩ := c1
    exact ⟨a1, a5, a6, a8, a9, a4, a12⟩
  obtain ⟨d1, d2, d3, d4, d5, d6, d7⟩ := hcore
  simp only [World.port, Prod.mk.injEq] at e2
  obtain ⟨p1, -, p3, -, -, -, -⟩ := e2
  -- the state in which the restoration starts
  set w4 : World := (if w3.transport then
      { emit .transportDisconnect w3 with
        readable := false, transport := false, esploader := false }
    else w3) with hw4
  have q1 : w4.device = w.device := by
    rw [hw4]; split <;> simp [emit, d1, p1]
  have q2 : w4.keepReading = false := by
    rw [hw4]; split <;> simp [emit, d2, e3]
  have q3 : w4.currentBaudRate = w.currentBaudRate := by
    rw [hw4]; split <;> simp [emit, d3, p3]
  have q4 : w4.transport = false := by
    rw [hw4]; split
    · rfl
    · simpa using ‹¬ w3.transport = true›
  have q5 : signalOps w4.trace = signalOps w.trace := by
    rw [hw4]; split <;>
      simp [signalOps, emit, List.filterMap_append, t1, e1, Event.signalOp]
  have q6 : opens w4.trace = opens w.trace := by
    rw [hw4]; split <;>
      simp [opens, emit, List.filterMap_append, t2, f1, Event.openBaud]
  have q7 : w4.lock = w3.lock ∧ w4.loops = w3.loops ∧ w4.nextReader = w3.nextReader := by
    rw [hw4]; split <;> simp [emit]
  obtain ⟨r1, r2, r3, r4, r5, r6⟩ :=
    restore_ok env w.currentBaudRate w4 hreopen hsig q2 (by rw [q1]; exact hdev)
  simp only [World.port, Prod.mk.injEq] at r4
  obtain ⟨u1, u2, u3, u4, -, -, -⟩ := r4
  refine ⟨trivial, ?_, ?_, ?_, ?_, ?_, ?_, r5, ?_⟩
  · rw [r1, q5]
  · rw [r2, q6]
  · rw [u1, q1]
  · exact u2
  · rw [u3, q3]
  · rw [u4, q4]
  · intro hs
    obtain ⟨s1, s2, s3, s4⟩ := tryEntry_settled env w hs
    have := r6 (by rw [q7.1, d4, s3]) (by rw [q7.2.1, d5, s2])
    rw [q7.2.2, d7, s4] at this
    exact this

/-- When `transport.disconnect()` does not raise, the outcome of `startFlashing` is the
outcome of its `try` block, whatever the reopen and the signal calls do. -/
theorem startFlashing_outcome_of_disconnect_ok (env : FlashEnv) (v : Option Version)
    (eraseFlash : Bool) (fb : Nat) (w : World) (hdev : w.device ≠ none)
    (hstop : w.monitorReader = none ∨ env.cancel = .ok ()) (hclose : env.close = .ok ())
    (hdisc : env.disconnect = .ok ()) :
    (startFlashing env v eraseFlash fb w).1 =
      (flashTry env v eraseFlash fb (tryEntry env w)).1 := by
  rw [startFlashing_entered env v eraseFlash fb w hdev hstop hclose]
  unfold flashGuarded
  simp only [flashFinally_eq _ _ _ hdisc, flashCatch_fst]

/-! ## C3 -/

/-- C3: in every run of `startFlashing` that enters its `try` block, whatever the outcome
of steps 3-6, if the engine disconnect, the reopen and the signal calls succeed, then on
return the outcome is the outcome of steps 3-6 (the same error on a failure), the port has
been opened exactly once, at the baud rate recorded on entry, and is readable,
`currentBaudRate` is unchanged, the protocol-engine session is cleared and `keepReading`
is true; from a settled state the restarted read loop is the only one and holds the
lock. -/
theorem startFlashing_failure_restores_monitor (env : FlashEnv) (v : Option Version)
    (eraseFlash : Bool) (fb : Nat) (w : World) (hdev : w.device ≠ none)
    (hstop : w.monitorReader = none ∨ env.cancel = .ok ()) (hclose : env.close = .ok ())
    (hdisc : env.disconnect = .ok ()) (hreopen : env.reopen = .ok ())
    (hsig : ∀ k, env.setSignals k = .ok ()) :
    (startFlashing env v eraseFlash fb w).1 = (flashTry env v eraseFlash fb (tryEntry env w)).1 ∧
    opens (startFlashing env v eraseFlash fb w).2.trace = opens w.trace ++ [w.currentBaudRate] ∧
    (startFlashing env v eraseFlash fb w).2.device = w.device ∧
    (startFlashing env v eraseFlash fb w).2.readable = true ∧
    (startFlashing env v eraseFlash fb w).2.currentBaudRate = w.currentBaudRate ∧
    (startFlashing env v eraseFlash fb w).2.transport = false ∧
    (startFlashing env v eraseFlash fb w).2.keepReading = true ∧
    (Settled w →
      (startFlashing env v eraseFlash fb w).2.monitorReader = some w.nextReader ∧
      (startFlashing env v eraseFlash fb w).2.loops = [w.nextReader] ∧
      (startFlashing env v eraseFlash fb w).2.lock = some w.nextReader) := by
  obtain ⟨h1, -, h3, h4, h5, h6, h7, h8, h9⟩ :=
    startFlashing_restored env v eraseFlash fb w hdev hstop hclose hdisc hreopen hsig
  exact ⟨h1, h3, h4, h5, h6, h7, h8, h9⟩

/-- C3, applied to a monitored session at 115200 baud whose write to flash fails while
flashing at 921600 baud. -/
theorem startFlashing_failure_restores_monitor_witness :
    (startFlashing FlashEnv.writeFails (some Version.sample) false 921600
      World.monitoring).1 = .raise (.env 7) ∧
    opens (startFlashing FlashEnv.writeFails (some Version.sample) false 921600
      World.monitoring).2.trace = [115200] ∧
    (startFlashing FlashEnv.writeFails (some Version.sample) false 921600
      World.monitoring).2.keepReading = true ∧
    (startFlashing FlashEnv.writeFails (some Version.sample) false 921600
      World.monitoring).2.loops = [1] :=
  have h := startFlashing_failure_restores_monitor FlashEnv.writeFails (some Version.sample)
    false 921600 World.monitoring (by decide) (Or.inr rfl) rfl rfl rfl (fun _ => rfl)
  ⟨h.1.trans (by decide), h.2.1, h.2.2.2.2.2.2.1, (h.2.2.2.2.2.2.2 (by decide)).2.1⟩

/-! ## C4 -/

/-- C4, on the failing inputs: when `transport.disconnect()` raises in the `finally` block,
`startFlashing` raises that error.  It replaces the error of the failed write, or turns a
successful flashing into a failure; the port is not reopened, `keepReading` stays false and
`transport` stays set. -/
theorem startFlashing_raises_disconnect_error :
    (flashTry FlashEnv.writeAndDisconnectFail (some Version.sample) false 921600
      (tryEntry FlashEnv.writeAndDisconnectFail World.monitoring)).1 = .raise (.env 7) ∧
    (startFlashing FlashEnv.writeAndDisconnectFail (some Version.sample) false 921600
      World.monitoring).1 = .raise (.env 9) ∧
    (flashTry FlashEnv.disconnectFails (some Version.sample) false 921600
      (tryEntry FlashEnv.disconnectFails World.monitoring)).1 = .ok () ∧
    (startFlashing FlashEnv.disconnectFails (some Version.sample) false 921600
      World.monitoring).1 = .raise (.env 9) ∧
    opens (startFlashing FlashEnv.disconnectFails (some Version.sample) false 921600
      World.monitoring).2.trace = [] ∧
    (startFlashing FlashEnv.disconnectFails (some Version.sample) false 921600
      World.monitoring).2.keepReading = false ∧
    (startFlashing FlashEnv.disconnectFails (some Version.sample) false 921600
      World.monitoring).2.transport = true := by
  decide

/-! ## C5 -/

/-- C5: in every run of `startFlashing` that enters its `try` block, whatever the outcome
of steps 3-6, if the engine disconnect, the reopen and the signal calls succeed, the
control-signal operations issued are exactly: RTS asserted, 100 ms, RTS released, 3000 ms,
RTS asserted, 100 ms, RTS released, RTS released, with DTR false in each of the five
calls. -/
theorem startFlashing_double_reset (env : FlashEnv) (v : Option Version)
    (eraseFlash : Bool) (fb : Nat) (w : World) (hdev : w.device ≠ none)
    (hstop : w.monitorReader = none ∨ env.cancel = .ok ()) (hclose : env.close = .ok ())
    (hdisc : env.disconnect = .ok ()) (hreopen : env.reopen = .ok ())
    (hsig : ∀ k, env.setSignals k = .ok ()) :
    signalOps (startFlashing env v eraseFlash fb w).2.trace =
      signalOps w.trace ++
        [.setSignals false true, .delay 100, .setSignals false false, .delay 3000,
         .setSignals false true, .delay 100, .setSignals false false,
         .setSignals false false] :=
  (startFlashing_restored env v eraseFlash fb w hdev hstop hclose hdisc hreopen hsig).2.1

/-- C5, applied to a successful flashing and to a failed one. -/
theorem startFlashing_double_reset_witness :
    signalOps (startFlashing FlashEnv.allOk (some Version.sample) true 921600
      World.monitoring).2.trace = resetSequence ∧
    signalOps (startFlashing FlashEnv.writeFails (some Version.sample) true 921600
      World.monitoring).2.trace = resetSequence :=
  ⟨startFlashing_double_reset FlashEnv.allOk (some Version.sample) true 921600
      World.monitoring (by decide) (Or.inr rfl) rfl rfl rfl (fun _ => rfl),
   startFlashing_double_reset FlashEnv.writeFails (some Version.sample) true 921600
      World.monitoring (by decide) (Or.inr rfl) rfl rfl rfl (fun _ => rfl)⟩

/-! ## C6 -/

theorem entriesFrom_append (bytes : Nat → List Nat) (xs ys : List Part) :
    ∀ k, entriesFrom bytes k (xs ++ ys) =
      entriesFrom bytes k xs ++ entriesFrom bytes (k + xs.length) ys := by
  induction xs with
  | nil => intro k; simp [entriesFrom]
  | cons x xs ih =>
    intro k
    simp [entriesFrom, ih (k + 1), Nat.add_assoc, Nat.add_comm 1]

theorem entriesFrom_length (bytes : Nat → List Nat) (parts : List Part) :
    ∀ k, (entriesFrom bytes k parts).length = parts.length := by
  induction parts with
  | nil => intro k; rfl
  | cons x xs ih => intro k; simp [entriesFrom, ih (k + 1)]

theorem entriesFrom_address (bytes : Nat → List Nat) (parts : List Part) :
    ∀ k, (entriesFrom bytes k parts).map FileEntry.address = parts.map Part.offset := by
  induction parts with
  | nil => intro k; rfl
  | cons x xs ih => intro k; simp [entriesFrom, ih (k + 1)]

theorem entriesFrom_getElem? (bytes : Nat → List Nat) (parts : List Part) :
    ∀ (k i : Nat) (p : Part), parts[i]? = some p →
      (entriesFrom bytes k parts)[i]? =
        some { data := binaryString (bytes (k + i)), address := p.offset } := by
  induction parts with
  | nil => intro k i p h; simp at h
  | cons x xs ih =>
    intro k i p h
    cases i with
    | zero =>
      simp at h
      subst h
      simp [entriesFrom]
    | succ i =>
      simp at h
      simp [entriesFrom, ih (k + 1) i p h, Nat.add_assoc, Nat.add_comm 1]

/-- The inner loop, when every fetch succeeds. -/
theorem fetchParts_ok (env : FlashEnv) (base : String) (bytes : Nat → List Nat)
    (parts : List Part) :
    ∀ (acc : List FileEntry) (w : World),
      (∀ i p, parts[i]? = some p →
        env.fetchBinary (acc.length + i) (base ++ p.path) =
          .ok { ok := true, body := .ok (bytes (acc.length + i)) }) →
      (fetchParts env base parts acc w).1 = .ok (acc ++ entriesFrom bytes acc.length parts) ∧
      writes (fetchParts env base parts acc w).2.trace = writes w.trace := by
  induction parts with
  | nil => intro acc w _; simp [fetchParts, entriesFrom]
  | cons part rest ih =>
    intro acc w h
    have h0 := h 0 part (by simp)
    simp only [Nat.add_zero] at h0
    have hlen : (acc ++ [FileEntry.mk (binaryString (bytes acc.length)) part.offset]).length =
        acc.length + 1 := by simp
    have hrest : ∀ i p, rest[i]? = some p →
        env.fetchBinary
            ((acc ++ [FileEntry.mk (binaryString (bytes acc.length)) part.offset]).length + i)
            (base ++ p.path) =
          .ok (Response.mk true (.ok (bytes
            ((acc ++ [FileEntry.mk (binaryString (bytes acc.length)) part.offset]).length
              + i)))) := by
      intro i p hp
      have := h (i + 1) p (by simpa using hp)
      rw [hlen]
      simpa [Nat.add_assoc, Nat.add_comm 1] using this
    obtain ⟨r1, r2⟩ := ih (acc ++ [FileEntry.mk (binaryString (bytes acc.length)) part.offset])
      (emit (.fetchBinary (base ++ part.path)) (emit (.consoleLine (.fetching part.path)) w))
      hrest
    simp only [fetchParts, say, andThen_ok, fetchBinaryFile, call, h0, Bool.not_true]
    simp only [Bool.false_eq_true, if_false, andThen_ok]
    refine ⟨?_, ?_⟩
    · rw [r1, hlen]
      simp [entriesFrom]
    · rw [r2]
      simp [writes, emit, List.filterMap_append, Event.written]

/-- The outer loop, when every fetch succeeds. -/
theorem fetchBuilds_ok (env : FlashEnv) (base : String) (bytes : Nat → List Nat)
    (builds : List Build) :
    ∀ (acc : List FileEntry) (w : World),
      (∀ i p, (builds.map Build.parts).flatten[i]? = some p →
        env.fetchBinary (acc.length + i) (base ++ p.path) =
          .ok { ok := true, body := .ok (bytes (acc.length + i)) }) →
      (fetchBuilds env base builds acc w).1 =
        .ok (acc ++ entriesFrom bytes acc.length (builds.map Build.parts).flatten) ∧
      writes (fetchBuilds env base builds acc w).2.trace = writes w.trace := by
  induction builds with
  | nil => intro acc w _; simp [fetchBuilds, entriesFrom]
  | cons build rest ih =>
    intro acc w h
    have hparts : ∀ i p, build.parts[i]? = some p →
        env.fetchBinary (acc.length + i) (base ++ p.path) =
          .ok { ok := true, body := .ok (bytes (acc.length + i)) } := by
      intro i p hp
      apply h i p
      have hi : i < build.parts.length := by
        by_contra hc
        rw [List.getElem?_eq_none (by omega)] at hp
        cases hp
      simp [List.getElem?_append_left hi, hp]
    obtain ⟨p1, p2⟩ := fetchParts_ok env base bytes build.parts acc w hparts
    cases hfp : fetchParts env base build.parts acc w with
    | mk r w1 =>
      rw [hfp] at p1 p2
      simp only at p1 p2
      subst p1
      have hrest : ∀ i p, (rest.map Build.parts).flatten[i]? = some p →
          env.fetchBinary ((acc ++ entriesFrom bytes acc.length build.parts).length + i)
              (base ++ p.path) =
            .ok { ok := true,
                  body := .ok (bytes ((acc ++ entriesFrom bytes acc.length build.parts).length
                    + i)) } := by
        intro i p hp
        have := h (build.parts.length + i) p (by
          simp [List.getElem?_append_right (Nat.le_add_right _ _), hp])
        simpa [entriesFrom_length, Nat.add_assoc] using this
      obtain ⟨q1, q2⟩ := ih (acc ++ entriesFrom bytes acc.length build.parts) w1 hrest
      simp only [fetchBuilds, hfp, andThen_ok]
      refine ⟨?_, ?_⟩
      · rw [q1]
        simp [entriesFrom_append, entriesFrom_length]
      · rw [q2, p2]

theorem writes_append (a b : List Event) : writes (a ++ b) = writes a ++ writes b := by
  simp [writes, List.filterMap_append]

theorem writes_emit (e : Event) (w : World) (h : e.written = none) :
    writes (emit e w).trace = writes w.trace := by
  simp [writes, emit, List.filterMap_append, h]

/-- A call of `startSerialMonitor` hands nothing to `writeFlash`. -/
theorem startSerialMonitorCall_writes (w : World) :
    writes (startSerialMonitorCall w).trace = writes w.trace := by
  have hfrom : ∀ w : World, writes (startFromDevice w).trace = writes w.trace := by
    intro w
    unfold startFromDevice
    split
    · rfl
    · split
      · simp [writes, emit, List.filterMap_append, Event.written]
      · exact (readLoopEnter_frame Event.written written_monitorSide
          { w with keepReading := true }).1
  unfold startSerialMonitorCall
  split
  · cases hm : w.monitorReader with
    | none => simpa [hm] using hfrom { w with keepReading := false }
    | some r =>
      have := (cancelReader_frame Event.written written_monitorSide r
        { w with keepReading := false }).1
      simp only [hm] at this
      simpa [writes] using this
  · exact hfrom w

/-- The restoration hands nothing to `writeFlash`, whatever its calls do. -/
theorem restore_writes (env : FlashEnv) (mb : Nat) (w : World) :
    writes (restore env mb w).trace = writes w.trace := by
  have hP : ∀ (e : Event) (w' : World), e.written = none →
      writes w'.trace = writes w.trace → writes (emit e w').trace = writes w.trace := by
    intro e w' he h
    rw [writes_emit e w' he, h]
  have htry : writes (restoreTry env mb w).2.trace = writes w.trace := by
    unfold restoreTry
    refine andThen_keeps (P := fun w' => writes w'.trace = writes w.trace)
      (hP (.consoleLine .restoring) _ rfl rfl) (fun _ w1 h1 => ?_)
    refine andThen_keeps (P := fun w' => writes w'.trace = writes w.trace)
      (hP (.portOpen mb) _ rfl h1) (fun _ w2 h2 => ?_)
    refine andThen_keeps (P := fun w' => writes w'.trace = writes w.trace)
      ?_ (fun _ w3 h3 => ?_)
    · unfold doubleReset
      refine andThen_keeps (P := fun w' => writes w'.trace = writes w.trace)
        (hP (.consoleLine .firstReset) _ rfl h2) (fun _ x h => ?_)
      refine andThen_keeps (P := fun w' => writes w'.trace = writes w.trace)
        (hP (.setSignals false true) _ rfl h) (fun _ x h => ?_)
      refine andThen_keeps (P := fun w' => writes w'.trace = writes w.trace)
        (hP (.delay 100) _ rfl h) (fun _ x h => ?_)
      refine andThen_keeps (P := fun w' => writes w'.trace = writes w.trace)
        (hP (.setSignals false false) _ rfl h) (fun _ x h => ?_)
      refine andThen_keeps (P := fun w' => writes w'.trace = writes w.trace)
        (hP (.delay 3000) _ rfl h) (fun _ x h => ?_)
      refine andThen_keeps (P := fun w' => writes w'.trace = writes w.trace)
        (hP (.setSignals false true) _ rfl h) (fun _ x h => ?_)
      refine andThen_keeps (P := fun w' => writes w'.trace = writes w.trace)
        (hP (.delay 100) _ rfl h) (fun _ x h => ?_)
      refine andThen_keeps (P := fun w' => writes w'.trace = writes w.trace)
        (hP (.setSignals false false) _ rfl h) (fun _ x h => ?_)
      exact hP (.setSignals false false) _ rfl h
    · exact hP (.consoleLine .deviceReady) _ rfl ((startSerialMonitorCall_writes w3).trans h3)
  unfold restore
  cases hr : restoreTry env mb w with
  | mk r w1 =>
    rw [hr] at htry
    cases r with
    | ok a => exact htry
    | raise e =>
      exact hP (.consoleLine .manualReconnect) _ rfl (hP .consoleError _ rfl htry)

/-- The `finally` block hands nothing to `writeFlash`, whatever its calls do. -/
theorem flashFinally_writes (env : FlashEnv) (mb : Nat) (w : World) :
    writes (flashFinally env mb w).2.trace = writes w.trace := by
  unfold flashFinally
  cases ht : w.transport with
  | false => simp [andThen, restore_writes]
  | true =>
    cases hd : env.disconnect with
    | raise e => simp [andThen, call, hd, writes_emit, Event.written]
    | ok u =>
      simp only [andThen, call, hd, if_true]
      rw [restore_writes]
      simp [writes, emit, List.filterMap_append, Event.written]

/-- The second half of the `try` block, when every fetch succeeds: the file array handed
to `writeFlash` is the one of the specification. -/
theorem flashParts_writes (env : FlashEnv) (base : String) (m : Manifest)
    (bytes : Nat → List Nat) (w : World)
    (hfetch : ∀ i p, m.allParts[i]? = some p →
      env.fetchBinary i (base ++ p.path) = .ok { ok := true, body := .ok (bytes i) }) :
    writes (flashParts env base m w).2.trace =
      writes w.trace ++ [entriesFrom bytes 0 m.allParts] := by
  obtain ⟨f1, f2⟩ := fetchBuilds_ok env base bytes m.builds [] w
    (by simpa [Manifest.allParts] using hfetch)
  unfold flashParts
  cases hfb : fetchBuilds env base m.builds [] w with
  | mk r w1 =>
    rw [hfb] at f1 f2
    have f1' : r = .ok (entriesFrom bytes 0 m.allParts) := by
      simpa [Manifest.allParts] using f1
    have f2' : writes w1.trace = writes w.trace := f2
    subst f1'
    simp only [andThen_ok, say]
    have hstart : writes (emit (.engineWrite (entriesFrom bytes 0 m.allParts))
        (emit (.consoleLine .writing) w1)).trace =
        writes w.trace ++ [entriesFrom bytes 0 m.allParts] := by
      simp only [writes, emit, List.filterMap_append] at f2' ⊢
      rw [f2']
      simp [Event.written]
    refine andThen_keeps
      (P := fun w' => writes w'.trace = writes w.trace ++ [entriesFrom bytes 0 m.allParts])
      ?_ (fun _ x hx => ?_)
    · beta_reduce
      have hnone : ∀ l : List (String × String), writes (l.map progressWrite) = [] := by
        intro l
        rw [writes, List.filterMap_eq_nil_iff]
        intro e he
        obtain ⟨q, -, rfl⟩ := List.mem_map.1 he
        rfl
      rw [reportAll_trace, writes_append, hnone, List.append_nil]
      exact hstart
    · refine andThen_keeps
        (P := fun w' => writes w'.trace = writes w.trace ++ [entriesFrom bytes 0 m.allParts])
        hx (fun _ y hy => ?_)
      simpa [writes, emit, List.filterMap_append, Event.written] using hy

/-- The `try` block, when the steps before `writeFlash` succeed: the file array handed to
`writeFlash` is the one of the specification. -/
theorem flashTry_writes (env : FlashEnv) (v : Version) (eraseFlash : Bool) (fb : Nat)
    (w : World) (m : Manifest) (bytes : Nat → List Nat) (chip : String)
    (hT : env.newTransport = .ok ()) (hL : env.newLoader = .ok ())
    (hmain : env.main = .ok chip) (herase : eraseFlash = true → env.eraseFlash = .ok ())
    (hman : env.manifest = .ok { ok := true, json := .ok m })
    (hfetch : ∀ i p, m.allParts[i]? = some p →
      env.fetchBinary i (basePath v.manifest_path ++ p.path) =
        .ok { ok := true, body := .ok (bytes i) }) :
    writes (flashTry env (some v) eraseFlash fb w).2.trace =
      writes w.trace ++ [entriesFrom bytes 0 m.allParts] := by
  cases eraseFlash with
  | false =>
    simp only [flashTry, say, call, andThen_ok, hT, hL, hmain, hman, Bool.not_true,
      Bool.false_eq_true, if_false]
    rw [flashParts_writes env _ m bytes _ hfetch]
    simp [writes, emit, List.filterMap_append, Event.written]
  | true =>
    simp only [flashTry, say, call, andThen_ok, hT, hL, hmain, hman, herase rfl, Bool.not_true,
      Bool.false_eq_true, if_false, if_true]
    rw [flashParts_writes env _ m bytes _ hfetch]
    simp [writes, emit, List.filterMap_append, Event.written]

/-- The `catch` block hands nothing to `writeFlash`. -/
theorem flashCatch_writes (r : Res Unit × World) :
    writes (flashCatch r).2.trace = writes r.2.trace := by
  obtain ⟨o, w⟩ := r
  cases o with
  | ok a => rfl
  | raise e => simp [flashCatch, writes, emit, List.filterMap_append, Event.written]

/-- The state left by the guarded block is the state left by its `finally` block. -/
theorem flashGuarded_snd (env : FlashEnv) (v : Option Version) (eraseFlash : Bool)
    (fb mb : Nat) (w : World) :
    (flashGuarded env v eraseFlash fb mb w).2 =
      (flashFinally env mb (flashCatch (flashTry env v eraseFlash fb w)).2).2 := by
  unfold flashGuarded
  simp only []
  cases hf : flashFinally env mb (flashCatch (flashTry env v eraseFlash fb w)).2 with
  | mk r w1 => cases r <;> rfl

/-- C6: in every run of `startFlashing` whose steps up to the manifest succeed and in
which every fetch of a listed part succeeds, `writeFlash` is called once and the file list
it is handed has exactly one entry per part of the manifest, in manifest order (builds in
order, the parts of each build in order); entry `i` carries the bytes fetched for part `i`
and the offset of part `i`, so the offsets are those of the manifest, not sorted, merged or
deduplicated. -/
theorem startFlashing_file_list (env : FlashEnv) (v : Version) (eraseFlash : Bool) (fb : Nat)
    (w : World) (m : Manifest) (bytes : Nat → List Nat) (chip : String)
    (hdev : w.device ≠ none)
    (hstop : w.monitorReader = none ∨ env.cancel = .ok ()) (hclose : env.close = .ok ())
    (hT : env.newTransport = .ok ()) (hL : env.newLoader = .ok ())
    (hmain : env.main = .ok chip) (herase : eraseFlash = true → env.eraseFlash = .ok ())
    (hman : env.manifest = .ok { ok := true, json := .ok m })
    (hfetch : ∀ i p, m.allParts[i]? = some p →
      env.fetchBinary i (basePath v.manifest_path ++ p.path) =
        .ok { ok := true, body := .ok (bytes i) }) :
    ∃ fileArray : List FileEntry,
      writes (startFlashing env (some v) eraseFlash fb w).2.trace = writes w.trace ++ [fileArray] ∧
      fileArray.length = m.allParts.length ∧
      fileArray.map FileEntry.address = m.allParts.map Part.offset ∧
      ∀ i p, m.allParts[i]? = some p →
        fileArray[i]? = some (FileEntry.mk (binaryString (bytes i)) p.offset) := by
  refine ⟨entriesFrom bytes 0 m.allParts, ?_, entriesFrom_length _ _ _,
    entriesFrom_address _ _ _, ?_⟩
  · rw [startFlashing_entered env (some v) eraseFlash fb w hdev hstop hclose, flashGuarded_snd,
      flashFinally_writes]
    have h1 := flashTry_writes env v eraseFlash fb (tryEntry env w) m bytes chip hT hL hmain
      herase hman hfetch
    have h2 : writes (tryEntry env w).trace = writes w.trace :=
      (tryEntry_frame Event.written written_monitorSide (fun _ => rfl) rfl env w).1
    rw [h2] at h1
    rw [flashCatch_writes]
    exact h1
  · intro i p hp
    simpa using entriesFrom_getElem? bytes m.allParts 0 i p hp

/-- C6, applied to a manifest of two parts at offsets `0x0` and `0x10000`: two entries, with
offsets `0x0` then `0x10000`. -/
theorem startFlashing_file_list_witness :
    ∃ fileArray : List FileEntry,
      writes (startFlashing FlashEnv.allOk (some Version.sample) false 921600
        World.monitoring).2.trace = [fileArray] ∧
      fileArray.length = 2 ∧
      fileArray.map FileEntry.address = [0x0, 0x10000] :=
  (startFlashing_file_list FlashEnv.allOk Version.sample false 921600 World.monitoring
    Manifest.twoParts (fun k => [k, 255]) "ESP32" (by decide) (Or.inr rfl) rfl rfl rfl rfl
    (fun _ => rfl) rfl (fun _ _ _ => rfl)).imp (fun _ h => ⟨h.1, h.2.1, h.2.2.1⟩)

/-! ## C8 -/

/-- With no other activation of `startSerialMonitor` pending, a call of
`startSerialMonitor` in a state whose read loop is running cancels that loop, which
releases its lock and returns, and then starts one new loop on a fresh reader. -/
theorem startSerialMonitor_restart (w : World) (r : Nat) (hs : Settled w)
    (hm : w.monitorReader = some r) (hk : w.keepReading = true) (hdev : w.device ≠ none)
    (hread : w.readable = true) (hst : w.starters = []) :
    (startSerialMonitor w).loops = [w.nextReader] ∧
    (startSerialMonitor w).monitorReader = some w.nextReader ∧
    (startSerialMonitor w).lock = some w.nextReader ∧
    (startSerialMonitor w).keepReading = true ∧
    (startSerialMonitor w).starters = [] ∧
    (startSerialMonitor w).trace =
      w.trace ++ [.readerCancel r, .releaseLock r, .getReader w.nextReader] := by
  obtain ⟨hl, hlk⟩ := hs
  rw [hm] at hl hlk
  have hd : w.device.isSome = true := by
    cases hw : w.device with
    | none => exact absurd hw hdev
    | some p => rfl
  have hd2 : w.device.isNone = false := by
    cases hw : w.device with
    | none => exact absurd hw hdev
    | some p => rfl
  simp [startSerialMonitor, startSerialMonitorCall, startResume, startFromDevice, startTail,
    cancelReader, readLoopResume, readLoopFinally, readLoopEnter, emit, hm, hk, hl, hlk, hd,
    hd2, hread, hst]

/-- A call of `startSerialMonitor` on a running monitor, evaluated. -/
theorem startSerialMonitor_restart_example :
    (startSerialMonitor World.monitoring).loops = [1] ∧
    (startSerialMonitor World.monitoring).trace =
      [.readerCancel 0, .releaseLock 0, .getReader 1] :=
  have h := startSerialMonitor_restart World.monitoring 0 (by decide) rfl rfl (by decide)
    rfl rfl
  ⟨h.1, h.2.2.2.2.2⟩

/-- C8, on the failing schedule: when two activations of `startSerialMonitor` overlap, the
second `readLoop` calls `getReader()` while the first read loop holds the read lock; its
`finally` block then releases the lock of the first loop, and no read loop is left although
`keepReading` is true. -/
theorem overlapping_starts_contend_for_lock :
    World.overlapBeforeResume.loops = [0] ∧
    World.overlapBeforeResume.lock = some 0 ∧
    World.overlapBeforeResume.starters = [.afterSettle] ∧
    Event.getReaderLocked 0 ∈ World.overlapAfterResume.trace ∧
    World.overlapAfterResume.loops = [] ∧
    World.overlapAfterResume.keepReading = true := by
  decide

/-! ## C14 -/

/-- A call of `startSerialMonitor` leaves the device handle as it is. -/
theorem startSerialMonitorCall_device (w : World) :
    (startSerialMonitorCall w).device = w.device := by
  have hfrom : ∀ w : World, (startFromDevice w).device = w.device := by
    intro w
    unfold startFromDevice
    split
    · rfl
    · split
      · rfl
      · exact congrArg Prod.fst
          (readLoopEnter_frame Event.signalOp signalOp_monitorSide
            { w with keepReading := true }).2.1
  unfold startSerialMonitorCall
  split
  · cases hm : w.monitorReader with
    | none => simpa [hm] using hfrom { w with keepReading := false }
    | some r =>
      have h := congrArg Prod.fst
        (cancelReader_frame Event.signalOp signalOp_monitorSide r
          { w with keepReading := false }).2.1
      simp only [hm] at h
      simpa [World.port] using h
  · exact hfrom w

/-- The restoration leaves the device handle as it is, whatever its calls do. -/
theorem restore_device (env : FlashEnv) (mb : Nat) (w : World) :
    (restore env mb w).device = w.device := by
  have htry : (restoreTry env mb w).2.device = w.device := by
    unfold restoreTry
    refine andThen_keeps (P := fun w' => w'.device = w.device) rfl (fun _ w1 h1 => ?_)
    refine andThen_keeps (P := fun w' => w'.device = w.device) h1 (fun _ w2 h2 => ?_)
    refine andThen_keeps (P := fun w' => w'.device = w.device) ?_ (fun _ w3 h3 => ?_)
    · unfold doubleReset
      refine andThen_keeps (P := fun w' => w'.device = w.device) h2 (fun _ x h => ?_)
      refine andThen_keeps (P := fun w' => w'.device = w.device) h (fun _ x h => ?_)
      refine andThen_keeps (P := fun w' => w'.device = w.device) h (fun _ x h => ?_)
      refine andThen_keeps (P := fun w' => w'.device = w.device) h (fun _ x h => ?_)
      refine andThen_keeps (P := fun w' => w'.device = w.device) h (fun _ x h => ?_)
      refine andThen_keeps (P := fun w' => w'.device = w.device) h (fun _ x h => ?_)
      refine andThen_keeps (P := fun w' => w'.device = w.device) h (fun _ x h => ?_)
      refine andThen_keeps (P := fun w' => w'.device = w.device) h (fun _ x h => ?_)
      exact h
    · exact (startSerialMonitorCall_device w3).trans h3
  unfold restore
  cases hr : restoreTry env mb w with
  | mk r w1 =>
    rw [hr] at htry
    cases r with
    | ok a => exact htry
    | raise e => exact htry

/-- The `finally` block leaves the device handle as it is, whatever its calls do. -/
theorem flashFinally_device (env : FlashEnv) (mb : Nat) (w : World) :
    (flashFinally env mb w).2.device = w.device := by
  unfold flashFinally
  cases ht : w.transport with
  | false => simp [andThen, restore_device]
  | true =>
    cases hd : env.disconnect with
    | raise e => simp [andThen, call, hd, emit]
    | ok u =>
      simp only [andThen, call, hd, if_true]
      rw [restore_device]
      rfl

/-- No run of `startFlashing` writes the variable `device`. -/
theorem startFlashing_device (env : FlashEnv) (v : Option Version) (eraseFlash : Bool)
    (fb : Nat) (w : World) :
    (startFlashing env v eraseFlash fb w).2.device = w.device := by
  unfold startFlashing
  split
  · rfl
  · simp only []
    refine andThen_keeps (P := fun w' => w'.device = w.device) rfl (fun _ w1 h1 => ?_)
    refine andThen_keeps (P := fun w' => w'.device = w.device) ?_ (fun _ w2 h2 => ?_)
    · exact (congrArg Prod.fst
        (stopSerialMonitor_frame Event.signalOp signalOp_monitorSide env.cancel w1).2.1).trans h1
    · refine andThen_keeps (P := fun w' => w'.device = w.device) h2 (fun _ w3 h3 => ?_)
      show (flashGuarded env v eraseFlash fb w.currentBaudRate
        { w3 with readable := false }).2.device = w.device
      rw [flashGuarded_snd, flashFinally_device]
      have hc := (flashCatch_flashTry_frame Event.signalOp signalOp_engineSide env v eraseFlash
        fb { w3 with readable := false }).1
      exact (congrArg World.device hc).trans h3

/-- C14: in every run of `startFlashing` that passes its not-connected check, whatever the
outcome of every call (flashing success, flashing failure, a failed close, a failed engine
disconnect, a failed restoration), the device handle is left unchanged and non-null, so
`getConnectedPort()` returns the same handle afterwards; hence the test
`!getConnectedPort()` in the `catch` block of the flash button handler is false and the
flag `isConnected` of the page stays true. -/
theorem startFlashing_keeps_device_handle (env : FlashEnv) (v : Option Version)
    (eraseFlash : Bool) (fb : Nat) (w : World) (hdev : w.device ≠ none) :
    (startFlashing env v eraseFlash fb w).2.device = w.device ∧
    getConnectedPort (startFlashing env v eraseFlash fb w).2 = getConnectedPort w ∧
    getConnectedPort (startFlashing env v eraseFlash fb w).2 ≠ none ∧
    (flashClick env v eraseFlash fb true w).1 = true := by
  have h := startFlashing_device env v eraseFlash fb w
  have hne : getConnectedPort (startFlashing env v eraseFlash fb w).2 ≠ none := by
    unfold getConnectedPort
    rw [h]
    exact hdev
  refine ⟨h, h, hne, ?_⟩
  unfold flashClick
  cases hs : startFlashing env v eraseFlash fb w with
  | mk r w1 =>
    rw [hs] at hne
    cases r with
    | ok a => rfl
    | raise e =>
      cases hg : getConnectedPort w1 with
      | none => exact absurd hg hne
      | some p => simp [hg]

/-- C14, applied to a flashing whose write fails and whose restoration cannot reopen the
port: the port is left closed, the handle is the same, the page stays connected. -/
theorem startFlashing_keeps_device_handle_witness :
    (startFlashing FlashEnv.writeAndReopenFail (some Version.sample) false 921600
      World.monitoring).1 = .raise (.env 7) ∧
    (startFlashing FlashEnv.writeAndReopenFail (some Version.sample) false 921600
      World.monitoring).2.readable = false ∧
    getConnectedPort (startFlashing FlashEnv.writeAndReopenFail (some Version.sample) false
      921600 World.monitoring).2 = some 1 ∧
    (flashClick FlashEnv.writeAndReopenFail (some Version.sample) false 921600 true
      World.monitoring).1 = true :=
  have h := startFlashing_keeps_device_handle FlashEnv.writeAndReopenFail
    (some Version.sample) false 921600 World.monitoring (by decide)
  ⟨by decide, by decide, h.2.1, h.2.2.2⟩

/-! ## C12 -/

/-- C12, as the claim states it, fails: a read error delivered to the running read loop
adds `console.error` and the release of the lock to the trace, and nothing is written to
the serial-monitor output sink. -/
theorem read_error_writes_nothing_to_monitor :
    (readLoopResume 0 .error World.monitoring).trace = [.consoleError, .releaseLock 0] ∧
    ¬ ∃ e ∈ (readLoopResume 0 .error World.monitoring).trace, e.monitorSink = true := by
  decide

/-- C12 (amended): in every settled state whose read loop awaits a read on reader `r`, a
read error ends the loop: the lock is released, no loop, reader or lock is left, no
acquisition, read or reconnection follows, and the port, the device handle, `keepReading`
and the pending activations are as before.  The error is reported by `console.error`
only: the calls added to the trace are `console.error` and the release of the lock, and
nothing is written to the serial-monitor output sink. -/
theorem read_error_ends_loop (w : World) (r : Nat) (hs : Settled w)
    (hm : w.monitorReader = some r) :
    (readLoopResume r .error w).trace = w.trace ++ [.consoleError, .releaseLock r] ∧
    (readLoopResume r .error w).loops = [] ∧
    (readLoopResume r .error w).monitorReader = none ∧
    (readLoopResume r .error w).lock = none ∧
    (readLoopResume r .error w).port = w.port ∧
    (readLoopResume r .error w).keepReading = w.keepReading ∧
    (readLoopResume r .error w).trace.filter Event.monitorSink =
      w.trace.filter Event.monitorSink ∧
    (readLoopResume r .error w).trace.filter Event.acquisition =
      w.trace.filter Event.acquisition ∧
    (readLoopResume r .error w).trace.filter Event.reconnection =
      w.trace.filter Event.reconnection := by
  obtain ⟨hl, hlk⟩ := hs
  rw [hm] at hl hlk
  simp [readLoopResume, readLoopFinally, emit, hm, hl, hlk, World.port, List.filter_append,
    Event.monitorSink, Event.acquisition, Event.reconnection]

/-- C12 (amended), applied to a running monitor. -/
theorem read_error_ends_loop_witness :
    Settled World.monitoring ∧
    (readLoopResume 0 .error World.monitoring).loops = [] ∧
    (readLoopResume 0 .error World.monitoring).trace = [.consoleError, .releaseLock 0] :=
  have h := read_error_ends_loop World.monitoring 0 (by decide) rfl
  ⟨by decide, h.2.1, h.1⟩

/-! ## C11 -/

theorem lockTrack_append (a b : List Event) :
    lockTrack (a ++ b) = b.foldl lockStep (lockTrack a) := by
  simp [lockTrack, List.foldl_append]

/-- A read outcome delivered to the read loop keeps the states of the runs. -/
theorem read_disciplined (res : ReadResult) (w : World) (h : Disciplined w) :
    Disciplined ((MonitorStep.read res).apply w) := by
  obtain ⟨⟨hl, hlk⟩, ht, hst, hkr⟩ := h
  cases hm : w.monitorReader with
  | none =>
    rw [hm] at hl
    have : (MonitorStep.read res).apply w = w := by simp [MonitorStep.apply, hl]
    rw [this]
    exact ⟨⟨by rw [hm]; exact hl, hlk⟩, ht, hst, hkr⟩
  | some r =>
    rw [hm] at hl hlk ht
    have hs0 : w.starters = [] := by
      rcases hst with h0 | ⟨-, h1⟩
      · exact h0
      · rw [hm] at h1; cases h1
    have hk : w.keepReading = true := hkr (by rw [hm]; simp)
    cases res with
    | chunk value =>
      cases value with
      | none =>
        simp [MonitorStep.apply, Disciplined, Settled, readLoopResume, hl, hlk, hm, ht, hs0, hk]
      | some v =>
        simp [MonitorStep.apply, Disciplined, Settled, readLoopResume, emit, hl, hlk, hm, ht,
          hs0, hk, lockTrack_append, lockStep]
    | done =>
      by_cases hc : (w.device.isSome && w.readable) = true
      · simp [MonitorStep.apply, Disciplined, Settled, readLoopResume, readLoopFinally,
          readLoopEnter, emit, hl, hlk, hm, ht, hs0, hk, hc, lockTrack_append, lockStep]
      · simp [MonitorStep.apply, Disciplined, Settled, readLoopResume, readLoopFinally,
          readLoopEnter, emit, hl, hlk, hm, ht, hs0, hk, hc, lockTrack_append, lockStep]
    | error =>
      simp [MonitorStep.apply, Disciplined, Settled, readLoopResume, readLoopFinally,
        emit, hl, hlk, hm, ht, hs0, hk, lockTrack_append, lockStep]

/-- A call of `stopSerialMonitor` keeps the states of the runs. -/
theorem stop_disciplined (c : Res Unit) (w : World) (h : Disciplined w) :
    Disciplined ((MonitorStep.stop c).apply w) := by
  obtain ⟨⟨hl, hlk⟩, ht, hst, hkr⟩ := h
  cases hm : w.monitorReader with
  | none =>
    rw [hm] at hl hlk ht
    simp [MonitorStep.apply, Disciplined, Settled, stopSerialMonitor, hl, hlk, hm, ht]
    simpa [hm] using hst
  | some r =>
    rw [hm] at hl hlk ht
    have hs0 : w.starters = [] := by
      rcases hst with h0 | ⟨-, h1⟩
      · exact h0
      · rw [hm] at h1; cases h1
    simp [MonitorStep.apply, Disciplined, Settled, stopSerialMonitor, cancelReader,
      readLoopResume, readLoopFinally, readLoopEnter, emit, hl, hlk, hm, ht, hs0,
      lockTrack_append, lockStep]

/-- The part of `startSerialMonitor` from the test of `device` on keeps the states of the
runs, when no read loop is running and no other activation is suspended. -/
theorem startFromDevice_disciplined (w : World) (h : Disciplined w)
    (hm : w.monitorReader = none) (hs0 : w.starters = []) :
    Disciplined (startFromDevice w) := by
  obtain ⟨⟨hl, hlk⟩, ht, -, -⟩ := h
  rw [hm] at hl hlk ht
  cases hd : w.device with
  | none => simp [startFromDevice, Disciplined, Settled, hd, hl, hlk, hm, ht, hs0]
  | some p =>
    cases hr : w.readable with
    | false =>
      simp [startFromDevice, Disciplined, Settled, emit, hd, hr, hl, hlk, hm, ht, hs0,
        lockTrack_append, lockStep]
    | true =>
      simp [startFromDevice, startTail, readLoopEnter, Disciplined, Settled, emit, hd, hr, hl,
        hlk, hm, ht, hs0, lockTrack_append, lockStep]

/-- A call of `startSerialMonitor` made while no activation of it is suspended keeps the
states of the runs. -/
theorem start_disciplined (w : World) (h : Disciplined w) (hs0 : w.starters = []) :
    Disciplined (MonitorStep.start.apply w) := by
  have h' := h
  obtain ⟨⟨hl, hlk⟩, ht, -, hkr⟩ := h
  cases hm : w.monitorReader with
  | none =>
    cases hk : w.keepReading with
    | false =>
      simpa [MonitorStep.apply, startSerialMonitorCall, hk] using
        startFromDevice_disciplined w h' hm hs0
    | true =>
      have hw : Disciplined { w with keepReading := false } := by
        rw [hm] at hl hlk ht
        simp [Disciplined, Settled, hl, hlk, hm, ht, hs0]
      simpa [MonitorStep.apply, startSerialMonitorCall, hk, hm] using
        startFromDevice_disciplined { w with keepReading := false } hw hm hs0
  | some r =>
    rw [hm] at hl hlk ht
    have hk : w.keepReading = true := hkr (by rw [hm]; simp)
    simp [MonitorStep.apply, startSerialMonitorCall, Disciplined, Settled, cancelReader,
      readLoopResume, readLoopFinally, readLoopEnter, emit, hl, hlk, hm, ht, hs0, hk,
      lockTrack_append, lockStep]

/-- The resumption of the suspended activation of `startSerialMonitor` keeps the states of
the runs. -/
theorem resume_disciplined (w : World) (h : Disciplined w) :
    Disciplined (MonitorStep.resume.apply w) := by
  have h' := h
  obtain ⟨⟨hl, hlk⟩, ht, hst, hkr⟩ := h
  cases hs : w.starters with
  | nil =>
    have : MonitorStep.resume.apply w = w := by simp [MonitorStep.apply, hs]
    rw [this]
    exact h'
  | cons pc rest =>
    have hm : w.monitorReader = none := by
      rcases hst with h0 | ⟨-, h1⟩
      · rw [hs] at h0; cases h0
      · exact h1
    have hrest : rest = [] := by
      rcases hst with h0 | ⟨h1, -⟩
      · rw [hs] at h0; cases h0
      · rw [hs] at h1
        simpa using h1
    subst hrest
    rw [hm] at hl hlk ht
    -- the state in which the activation runs on
    have hw : Disciplined { w with starters := [] } := by
      simp [Disciplined, Settled, hl, hlk, hm, ht]
    cases pc with
    | afterCancel =>
      have hw2 : Disciplined { w with starters := [], monitorReader := none } := by
        simp [Disciplined, Settled, hl, hlk, ht]
      have := startFromDevice_disciplined { w with starters := [], monitorReader := none }
        hw2 rfl rfl
      simpa [MonitorStep.apply, startResume, hs] using this
    | afterSettle =>
      cases hd : w.device with
      | none =>
        simpa [MonitorStep.apply, startResume, hs, hd] using hw
      | some p =>
        cases hr : w.readable with
        | false =>
          simp [MonitorStep.apply, startResume, hs, hd, hr, Disciplined, Settled, emit, hl, hlk,
            hm, ht, lockTrack_append, lockStep]
        | true =>
          simp [MonitorStep.apply, startResume, startTail, readLoopEnter, hs, hd, hr,
            Disciplined, Settled, emit, hl, hlk, hm, ht, lockTrack_append, lockStep]

/-- Every run in which the activations of `startSerialMonitor` do not overlap keeps the
states of the runs. -/
theorem runSteps_disciplined (steps : List MonitorStep) :
    ∀ w : World, Disciplined w → noOverlap steps w = true → Disciplined (runSteps steps w) := by
  induction steps with
  | nil => intro w h _; exact h
  | cons s rest ih =>
    intro w h hno
    simp only [noOverlap, Bool.and_eq_true] at hno
    obtain ⟨h1, h2⟩ := hno
    refine ih (s.apply w) ?_ h2
    cases s with
    | read res => exact read_disciplined res w h
    | stop c => exact stop_disciplined c w h
    | start =>
      refine start_disciplined w h ?_
      simpa using h1
    | resume => exact resume_disciplined w h

/-- In every run made of read outcomes delivered to the read loop (data chunks, end of
stream, a read error), of calls of `stopSerialMonitor` and of calls and resumptions of
`startSerialMonitor` in which no two activations of `startSerialMonitor` overlap, the lock
discipline is kept: each read lock acquired by `readLoop` is released exactly once, before
the next acquisition; the only lock still held is the one of the running read loop, and
when no read loop is running every acquired lock has been released. -/
theorem read_lock_released_once (steps : List MonitorStep) (w : World) (h : Disciplined w)
    (hno : noOverlap steps w = true) :
    lockTrack (runSteps steps w).trace = some (runSteps steps w).monitorReader ∧
    (runSteps steps w).loops = (runSteps steps w).monitorReader.toList ∧
    (runSteps steps w).lock = (runSteps steps w).monitorReader ∧
    ((runSteps steps w).loops = [] → lockTrack (runSteps steps w).trace = some none ∧
      (runSteps steps w).lock = none) := by
  obtain ⟨⟨hl, hlk⟩, ht, -, -⟩ := runSteps_disciplined steps w h hno
  refine ⟨ht, hl, hlk, ?_⟩
  intro hnil
  have hm : (runSteps steps w).monitorReader = none := by
    cases hmr : (runSteps steps w).monitorReader with
    | none => rfl
    | some r => rw [hmr] at hl; rw [hl] at hnil; cases hnil
  rw [ht, hlk, hm]
  exact ⟨rfl, rfl⟩

/-- The lock discipline on `sampleRun` from the state of a started monitor: three locks are
acquired in the run, and at its end no read loop is running and no lock is held. -/
theorem read_lock_released_once_witness :
    Disciplined World.started ∧ noOverlap sampleRun World.started = true ∧
    (runSteps sampleRun World.started).loops = [] ∧
    lockTrack (runSteps sampleRun World.started).trace = some none ∧
    (runSteps sampleRun World.started).trace.filter Event.acquisition =
      [.getReader 0, .getReader 1, .getReader 2, .getReader 3] :=
  have h := read_lock_released_once sampleRun World.started (by decide) (by decide)
  ⟨by decide, by decide, by decide, (h.2.2.2 (by decide)).1, by decide⟩

/-- C11, on the failing schedule: while an activation of `startSerialMonitor` awaits the
`cancel` of the running loop (which ends and releases reader 0), a second activation starts
a read loop that acquires reader 1; the first activation resumes and clears
`monitorReader`; after the next chunk the loop calls `read` on the cleared variable, which
raises, and its `finally` block skips `releaseLock`.  Reader 1 is acquired and never
released: the loop has returned, the lock is still held, and a later `stopSerialMonitor`
finds no reader to cancel. -/
theorem overlapping_starts_leave_lock_held :
    noOverlap overlappingRun World.started = false ∧
    Event.getReader 1 ∈ (runSteps overlappingRun World.started).trace ∧
    Event.releaseLock 1 ∉ (runSteps overlappingRun World.started).trace ∧
    (runSteps overlappingRun World.started).loops = [] ∧
    (runSteps overlappingRun World.started).monitorReader = none ∧
    (runSteps overlappingRun World.started).lock = some 1 ∧
    lockTrack (runSteps overlappingRun World.started).trace = some (some 1) ∧
    (runSteps (overlappingRun ++ [.stop (.ok ())]) World.started).trace =
      (runSteps overlappingRun World.started).trace ∧
    (runSteps (overlappingRun ++ [.stop (.ok ())]) World.started).lock = some 1 := by
  decide

/-! ## C13 -/

theorem roundHalfEven_error (y : ℚ) : |(roundHalfEven y : ℚ) - y| ≤ 1 / 2 := by
  have h1 := Int.floor_le y
  have h2 := Int.lt_floor_add_one y
  rw [abs_le]
  unfold roundHalfEven
  split_ifs <;> push_cast <;> constructor <;> linarith

theorem shiftFrom_spec (x : ℚ) : ∀ fuel s : ℕ, (2 : ℚ) ^ 52 ≤ x * 2 ^ (s + fuel) →
    (2 : ℚ) ^ 52 ≤ x * 2 ^ shiftFrom x fuel s := by
  intro fuel
  induction fuel with
  | zero => intro s h; simpa [shiftFrom] using h
  | succ n ih =>
    intro s h
    unfold shiftFrom
    split_ifs with hc
    · exact hc
    · apply ih
      have : s + 1 + n = s + (n + 1) := by omega
      rw [this]; exact h

theorem shiftFrom_lt (x : ℚ) : ∀ fuel s : ℕ, x * 2 ^ s < 2 ^ 53 →
    x * 2 ^ shiftFrom x fuel s < 2 ^ 53 := by
  intro fuel
  induction fuel with
  | zero => intro s h; simpa [shiftFrom] using h
  | succ n ih =>
    intro s h
    unfold shiftFrom
    split_ifs with hc
    · exact h
    · apply ih
      rw [pow_succ]
      push_neg at hc
      linarith

theorem shift_spec (x : ℚ) (hx : 0 < x) : (2 : ℚ) ^ 52 ≤ x * 2 ^ shift x := by
  apply shiftFrom_spec
  have hnum : (1 : ℚ) ≤ x.num := by
    have : 0 < x.num := Rat.num_pos.2 hx
    exact_mod_cast this
  have hden : (x.den : ℚ) ≤ 2 ^ x.den := by
    exact_mod_cast (Nat.lt_two_pow x.den).le
  have hmul : x * x.den = x.num := Rat.mul_den_eq_num x
  have h1 : 1 ≤ x * 2 ^ x.den := by
    calc (1 : ℚ) ≤ x.num := hnum
      _ = x * x.den := hmul.symm
      _ ≤ x * 2 ^ x.den := by apply mul_le_mul_of_nonneg_left hden hx.le
  have : x * 2 ^ (0 + (52 + x.den)) = 2 ^ 52 * (x * 2 ^ x.den) := by
    rw [Nat.zero_add, pow_add]; ring
  rw [this]
  nlinarith [pow_pos (show (0 : ℚ) < 2 by norm_num) 52]

theorem shift_lt (x : ℚ) (hx : x < 2 ^ 53) : x * 2 ^ shift x < 2 ^ 53 := by
  apply shiftFrom_lt
  simpa using hx

theorem fl_error (x : ℚ) (hx : 0 ≤ x) : |fl x - x| ≤ x / 2 ^ 53 := by
  rcases hx.eq_or_lt with h0 | hpos
  · subst h0; simp [fl]
  · have hs := shift_spec x hpos
    have he := roundHalfEven_error (x * 2 ^ shift x)
    have hp : (0 : ℚ) < 2 ^ shift x := by positivity
    have hfl : fl x = (roundHalfEven (x * 2 ^ shift x) : ℚ) / 2 ^ shift x := by
      simp [fl, not_le.2 hpos]
    have : fl x - x = ((roundHalfEven (x * 2 ^ shift x) : ℚ) - x * 2 ^ shift x) / 2 ^ shift x := by
      rw [hfl]; field_simp; ring
    rw [this, abs_div, abs_of_pos hp, div_le_div_iff₀ hp (by positivity)]
    calc |(roundHalfEven (x * 2 ^ shift x) : ℚ) - x * 2 ^ shift x| * 2 ^ 53
        ≤ 1 / 2 * 2 ^ 53 := by apply mul_le_mul_of_nonneg_right he (by positivity)
      _ = 2 ^ 52 := by norm_num
      _ ≤ x * 2 ^ shift x := hs

theorem tie_cells : ∀ K : Fin 21, 0 < K.val →
    jsRound (fl (20 * fl ((2 * (K.val : ℚ) - 1) / 40))) = K.val := by decide!

theorem scaled_ratio_round (c w t : ℕ) (hc : c ≤ 100) (ht : 0 < t) (ht2 : t < 2 ^ 44)
    (hw : w ≤ t) :
    0 ≤ jsRound (fl (c * fl (w / t))) ∧
    2 * jsRound (fl (c * fl (w / t))) * t ≤ 2 * c * w + t ∧
    (2 * c * w : ℤ) ≤ 2 * jsRound (fl (c * fl (w / t))) * t + t := by
  have htq : (0 : ℚ) < t := by exact_mod_cast ht
  have ht2q : (t : ℚ) < 2 ^ 44 := by exact_mod_cast ht2
  have hwq : (w : ℚ) ≤ t := by exact_mod_cast hw
  have hcq : (c : ℚ) ≤ 100 := by exact_mod_cast hc
  have hc0 : (0 : ℚ) ≤ c := by positivity
  have hr0 : (0 : ℚ) ≤ (w : ℚ) / t := by positivity
  have hr1 : (w : ℚ) / t ≤ 1 := (div_le_one htq).2 hwq
  have hrt : (w : ℚ) / t * t = w := div_mul_cancel₀ _ htq.ne.symm
  generalize (w : ℚ) / t = r at hr0 hr1 hrt ⊢
  have hq := abs_le.1 (fl_error r hr0)
  have hq0 : 0 ≤ fl r := by
    have : r / 2 ^ 53 ≤ r := div_le_self hr0 (by norm_num)
    linarith [hq.1]
  have hb0 : 0 ≤ (c : ℚ) * fl r := mul_nonneg hc0 hq0
  have hv := abs_le.1 (fl_error (c * fl r) hb0)
  have ha : (c : ℚ) * r ≤ 100 := by
    calc (c : ℚ) * r ≤ 100 * 1 := mul_le_mul hcq hr1 hr0 (by norm_num)
      _ = 100 := by norm_num
  have ha0 : 0 ≤ (c : ℚ) * r := mul_nonneg hc0 hr0
  have hb1 : (c : ℚ) * fl r ≤ c * r + c * r / 2 ^ 53 := by
    have := mul_le_mul_of_nonneg_left (show fl r ≤ r + r / 2 ^ 53 by linarith [hq.2]) hc0
    calc (c : ℚ) * fl r ≤ c * (r + r / 2 ^ 53) := this
      _ = c * r + c * r / 2 ^ 53 := by ring
  have hb2 : (c : ℚ) * r - c * r / 2 ^ 53 ≤ c * fl r := by
    have := mul_le_mul_of_nonneg_left (show r - r / 2 ^ 53 ≤ fl r by linarith [hq.1]) hc0
    calc (c : ℚ) * r - c * r / 2 ^ 53 = c * (r - r / 2 ^ 53) := by ring
      _ ≤ c * fl r := this
  have hat : (c : ℚ) * r * t = c * w := by rw [mul_assoc, hrt]
  generalize fl (c * fl r) = v at hv ⊢
  generalize (c : ℚ) * fl r = b at hv hb0 hb1 hb2
  generalize (c : ℚ) * r = a at ha ha0 hb1 hb2 hat
  have hup : v - a < 1 / 2 ^ 45 := by
    norm_num at hv hb1 hb2 ⊢
    linarith [hv.2]
  have hlo : a - v < 1 / 2 ^ 45 := by
    norm_num at hv hb1 hb2 ⊢
    linarith [hv.1]
  have hv0 : 0 ≤ v := by
    norm_num at hv hb1 hb2 ⊢
    linarith [hv.1]
  have het : (1 : ℚ) / 2 ^ 45 * t < 1 / 2 := by
    have h44 : (t : ℚ) < 17592186044416 := by
      have h := ht2q
      norm_num at h
      exact_mod_cast h
    norm_num
    linarith
  have hfl := Int.floor_le (v + 1 / 2)
  have hfu := Int.lt_floor_add_one (v + 1 / 2)
  unfold jsRound
  generalize ⌊v + 1 / 2⌋ = p at hfl hfu ⊢
  have h1 : (p : ℚ) * t ≤ (v + 1 / 2) * t := mul_le_mul_of_nonneg_right hfl htq.le
  have h2 : (v + 1 / 2) * t < ((p : ℚ) + 1) * t := mul_lt_mul_of_pos_right hfu htq
  have h3 : (v - a) * t < 1 / 2 ^ 45 * t := mul_lt_mul_of_pos_right hup htq
  have h4 : (a - v) * t < 1 / 2 ^ 45 * t := mul_lt_mul_of_pos_right hlo htq
  refine ⟨?_, ?_, ?_⟩
  · have : (-1 : ℚ) < p := by linarith
    have : (-1 : ℤ) < p := by exact_mod_cast this
    omega
  · have : (2 * p * t : ℚ) < 2 * c * w + t + 1 := by linarith
    have : 2 * p * (t : ℤ) < 2 * c * w + t + 1 := by exact_mod_cast this
    omega
  · have : (2 * c * w : ℚ) < 2 * p * t + t + 1 := by linarith
    have : (2 * c * w : ℤ) < 2 * p * t + t + 1 := by exact_mod_cast this
    omega

theorem ieee_cells (w t : ℕ) (ht : 0 < t) (ht2 : t < 2 ^ 44) (hw : w ≤ t) :
    jsRound (fl (20 * fl ((w : ℚ) / t))) = (((40 * w + t) / (2 * t) : ℕ) : ℤ) := by
  have h := scaled_ratio_round 20 w t (by norm_num) ht ht2 hw
  simp only [Nat.cast_ofNat] at h
  obtain ⟨h0, h1, h2⟩ := h
  obtain ⟨n, hn⟩ := Int.eq_ofNat_of_zero_le h0
  rw [hn] at h1 h2
  have h1n : 2 * n * t ≤ 40 * w + t := by
    have : (2 * n * t : ℤ) ≤ 40 * w + t := by linarith
    exact_mod_cast this
  have h2n : 40 * w ≤ 2 * n * t + t := by
    have : (40 * w : ℤ) ≤ 2 * n * t + t := by linarith
    exact_mod_cast this
  by_cases tie : 40 * w = 2 * n * t + t
  · exfalso
    have hn20 : n + 1 < 21 := by
      by_contra hcon
      have h20 : 20 ≤ n := by omega
      have : 2 * 20 * t ≤ 2 * n * t := Nat.mul_le_mul_right t (Nat.mul_le_mul_left 2 h20)
      omega
    have hr : (w : ℚ) / t = (2 * (((⟨n + 1, hn20⟩ : Fin 21).val : ℕ) : ℚ) - 1) / 40 := by
      have htq : (t : ℚ) ≠ 0 := by exact_mod_cast ht.ne.symm
      have tq : (40 * w : ℚ) = 2 * n * t + t := by exact_mod_cast tie
      field_simp
      linarith
    have hK := tie_cells ⟨n + 1, hn20⟩ (by simp)
    rw [← hr, hn] at hK
    simp at hK
  · have hlt : 40 * w < 2 * n * t + t := lt_of_le_of_ne h2n tie
    rw [hn]
    congr 1
    apply le_antisymm
    · rw [Nat.le_div_iff_mul_le (by omega)]
      linarith
    · apply Nat.lt_succ_iff.1
      rw [Nat.div_lt_iff_lt_mul (by omega)]
      linarith

theorem ieee_percent (w t : ℕ) (ht : 0 < t) (ht2 : t < 2 ^ 44) (hw : w ≤ t) :
    ∃ p : ℕ, jsRound (fl (fl ((w : ℚ) / t) * 100)) = (p : ℤ) ∧
      2 * p * t ≤ 200 * w + t ∧ 200 * w ≤ 2 * p * t + t := by
  have h := scaled_ratio_round 100 w t (by norm_num) ht ht2 hw
  simp only [Nat.cast_ofNat] at h
  rw [mul_comm (100 : ℚ)] at h
  obtain ⟨h0, h1, h2⟩ := h
  obtain ⟨n, hn⟩ := Int.eq_ofNat_of_zero_le h0
  rw [hn] at h1 h2
  refine ⟨n, hn, ?_, ?_⟩
  · have : (2 * n * t : ℤ) ≤ 200 * w + t := by linarith
    exact_mod_cast this
  · have : (200 * w : ℤ) ≤ 2 * n * t + t := by linarith
    exact_mod_cast this

/-- C13, as the claim states it, fails: for `written = 191065557482345` and `total = 206557359440373`
the value of `20 * written / total` lies below `18.5`, so that its nearest integer is `18`,
and the callback fills `19` cells: the rounded quotient times `20` is `18.5`. -/
theorem progress_bar_large_total_misrounds :
    0 < 206557359440373 ∧ 191065557482345 ≤ 206557359440373 ∧
    (20 * 191065557482345 : ℚ) / 206557359440373 < 37 / 2 ∧
    (40 * 191065557482345 + 206557359440373) / (2 * 206557359440373) = 18 ∧
    fl (20 * fl ((191065557482345 : ℚ) / 206557359440373)) = 37 / 2 ∧
    NumberOps.ieee.filled 191065557482345 206557359440373 = .int 19 := by
  decide!

/-- At a tie the printed percentage can be the lower neighbour: `23 / 40 * 100` is
computed as a number below `57.5`. -/
theorem percentage_tie_rounds_down :
    fl (fl ((23 : ℚ) / 40) * 100) < 115 / 2 ∧ NumberOps.ieee.percentage 23 40 = "57" := by
  decide!

/-- C13 (amended): for `0 < total < 2 ^ 44` and `written ≤ total` the callback fills
`(40 * written + total) / (2 * total)` cells, which is `20 * written / total` rounded to the
nearest integer with halves up and is at most `20`; the remaining `20 -` that many cells
are empty, so the bar has 20 cells; the printed percentage `p` is an integer nearest to
`100 * written / total` (at a tie one of the two neighbours) and at most `100`; the bar is
full with `100` for `written = total` and empty with `0` for `written = 0`. -/
theorem progress_bar_proportional (fileCount fileIndex written total : Nat)
    (ht : 0 < total) (hsmall : total < 2 ^ 44) (hw : written ≤ total) :
    ∃ p : Nat,
      NumberOps.ieee.filled written total =
        .int (((40 * written + total) / (2 * total) : Nat)) ∧
      (40 * written + total) / (2 * total) ≤ 20 ∧
      JsNum.subFrom 20 (NumberOps.ieee.filled written total) =
        .int ((20 - (40 * written + total) / (2 * total) : Nat)) ∧
      NumberOps.ieee.percentage written total = toString p ∧
      2 * p * total ≤ 200 * written + total ∧ 200 * written ≤ 2 * p * total + total ∧
      p ≤ 100 ∧
      renderLine NumberOps.ieee fileCount fileIndex written total =
        .ok ("File " ++ toString (fileIndex + 1) ++ "/" ++ toString fileCount ++ " " ++
          ("[" ++ String.mk (List.replicate ((40 * written + total) / (2 * total)) '█') ++
            String.mk (List.replicate (20 - (40 * written + total) / (2 * total)) '-') ++
            "]") ++ " " ++ toString p ++ "% ") ∧
      (List.replicate ((40 * written + total) / (2 * total)) '█' ++
        List.replicate (20 - (40 * written + total) / (2 * total)) '-').length = 20 ∧
      (written = total → (40 * written + total) / (2 * total) = 20 ∧ p = 100) ∧
      (written = 0 → (40 * written + total) / (2 * total) = 0 ∧ p = 0) := by
  obtain ⟨p, hp, hlo, hhi⟩ := ieee_percent written total ht hsmall hw
  have hcells := ieee_cells written total ht hsmall hw
  have ht0 : total ≠ 0 := ht.ne.symm
  have hf20 : (40 * written + total) / (2 * total) ≤ 20 := by
    apply Nat.lt_succ_iff.1
    rw [Nat.div_lt_iff_lt_mul (by omega)]
    omega
  have hfilled : NumberOps.ieee.filled written total =
      .int (((40 * written + total) / (2 * total) : Nat)) := by
    simp only [NumberOps.ieee, if_neg ht0, hcells]
  have hpct : NumberOps.ieee.percentage written total = toString p := by
    simp only [NumberOps.ieee, if_neg ht0, hp]
    rfl
  have hp100 : p ≤ 100 := by
    by_contra hcon
    have h101 : 101 ≤ p := by omega
    have : 2 * 101 * total ≤ 2 * p * total :=
      Nat.mul_le_mul_right total (Nat.mul_le_mul_left 2 h101)
    omega
  generalize hfdef : (40 * written + total) / (2 * total) = f at hfilled hf20 ⊢
  have hsub : JsNum.subFrom 20 (NumberOps.ieee.filled written total) =
      .int ((20 - f : Nat)) := by
    rw [hfilled]
    simp only [JsNum.subFrom]
    congr 1
    omega
  refine ⟨p, hfilled, hf20, hsub, hpct, hlo, hhi, hp100, ?_, ?_, ?_, ?_⟩
  · have hfull : jsRepeat '█' (.int (f : Nat)) = .ok (String.mk (List.replicate f '█')) := by
      simp [jsRepeat]
    have hrest : jsRepeat '-' (.int ((20 - f : Nat))) =
        .ok (String.mk (List.replicate (20 - f) '-')) := by
      simp [jsRepeat]
    have hsub2 := hsub
    rw [hfilled] at hsub2
    simp only [renderLine, hfilled, hsub2, hfull, hrest, hpct]
  · simp only [List.length_append, List.length_replicate]
    omega
  · intro heq
    subst heq
    constructor
    · rw [← hfdef]
      apply Nat.div_eq_of_lt_le <;> omega
    · by_contra hcon
      rcases Nat.lt_or_gt_of_ne hcon with h | h
      · have h99 : p ≤ 99 := by omega
        have : 2 * p * written ≤ 2 * 99 * written :=
          Nat.mul_le_mul_right written (Nat.mul_le_mul_left 2 h99)
        omega
      · omega
  · intro heq
    subst heq
    constructor
    · rw [← hfdef]
      apply Nat.div_eq_of_lt
      omega
    · by_contra hcon
      have h1 : 1 ≤ p := by omega
      have : 2 * 1 * total ≤ 2 * p * total :=
        Nat.mul_le_mul_right total (Nat.mul_le_mul_left 2 h1)
      omega

/-- C13 (amended), applied to one third of a file: 7 filled cells and 33 percent. -/
theorem progress_bar_proportional_witness :
    (0 < 3 ∧ 3 < 2 ^ 44 ∧ 1 ≤ 3) ∧
    NumberOps.ieee.filled 1 3 = .int 7 ∧
    renderLine NumberOps.ieee 2 0 1 3 = .ok "File 1/2 [███████-------------] 33% " := by
  obtain ⟨p, hf, _, _, _, hlo, hhi, _, hline, _⟩ :=
    progress_bar_proportional 2 0 1 3 (by decide) (by decide) (by decide)
  have hp : p = 33 := by omega
  subst hp
  exact ⟨by decide, hf, hline.trans (by decide)⟩

end EspFlasher
